import Mathlib

/-!
# Verification of the wildfire spatial-grid core

Shallow embedding of the spatial core of the `nasa_wildfires_data` repository:

* `src/wildfire_analysis/spatial/grid.py` — `create_grid_cells`, `create_grid_edges`
* `src/wildfire_analysis/spatial/distance.py` — `calculate_distance_km`,
  `fast_haversine`, `calculate_haversine_distances`
* `src/wildfire_analysis/spatial/graph_builder.py` — `process_node_features_fire`,
  `process_node_features_weather`, the batch construction inside
  `create_spatial_graph`
* `src/wildfire_analysis/utils/parallel.py` — `create_node_batches`

Floating point numbers are modelled by `ℝ` (the trigonometric code) or kept
polymorphic over a linear ordered field so that concrete instances can be
evaluated over `ℚ`.  Python exceptions are modelled by `Except String`;
a function that can raise inside a loop is embedded as an up-front check for
the raising condition followed by the pure loop result (an exception discards
all partial loop state in Python, so the two presentations agree on both the
normal and the exceptional outcome).  `NaN` produced by pandas reductions is
modelled by `Option ℝ` with `none` for `NaN`, and `np.inf` entries of distance
matrices by `⊤ : WithTop ℝ`.
-/

namespace Wildfire

/-! ## numpy primitives -/

/-- The value list of `np.arange(start, stop, step)` for `step ≠ 0`:
the values `start + k*step` for `0 ≤ k < max 0 ⌈(stop - start)/step⌉`
(this is numpy's documented length formula, for either sign of `step`). -/
def arangeList {α : Type} [LinearOrderedField α] [FloorRing α]
    (start stop step : α) : List α :=
  (List.range (⌈(stop - start) / step⌉).toNat).map (fun k : ℕ => start + (k : α) * step)

/-- `np.arange(start, stop, step)`; `np.arange` raises `ZeroDivisionError`
when `step = 0`. -/
def npArange {α : Type} [LinearOrderedField α] [FloorRing α] [DecidableEq α]
    (start stop step : α) : Except String (List α) :=
  if step = 0 then .error "ZeroDivisionError: division by zero"
  else .ok (arangeList start stop step)

/-- `np.radians`: degrees to radians. -/
noncomputable def radians (x : ℝ) : ℝ := x * Real.pi / 180

/-! ## `grid.py`: `create_grid_cells` -/

/-- Midpoints of consecutive bin edges, `[(bins[i] + bins[i+1])/2 for i in
range(len(bins)-1)]`, used for both band centers and longitude centers. -/
def binCenters {α : Type} [LinearOrderedField α] (bins : List α) : List α :=
  (bins.zip bins.tail).map (fun p => (p.1 + p.2) / 2)

/-- The center latitude of band `i`: `(lat_bins[i] + lat_bins[i+1]) / 2`. -/
def latCenter {α : Type} [LinearOrderedField α] (latBins : List α) (i : ℕ) : α :=
  (latBins.getD i 0 + latBins.getD (i + 1) 0) / 2

/-- Longitude step of a band:
`grid_size_km / (KM_PER_LAT_DEGREE * cos(radians(center_lat)))`. -/
noncomputable def lonStep (grid_size_km center_lat : ℝ) : ℝ :=
  grid_size_km / (111.0 * Real.cos (radians center_lat))

/-- Shallow embedding of `create_grid_cells` (grid.py lines 12–68).
The grid id string `f"{center_lat:.2f}_{center_lon:.2f}"` is abstracted as the
formatting parameter `fmt` applied to the center latitude and longitude; this
is the only use the function makes of the two-decimal format.
Returns `(lat_bins, lon_bins_by_lat, cell_centers)`; the `ZeroDivisionError`
raised by `np.arange` on a zero step (latitude step, or the longitude step of
some band) is modelled by the up-front checks. -/
noncomputable def createGridCells {ι : Type} (fmt : ℝ → ℝ → ι)
    (min_lat max_lat min_lon max_lon grid_size_km : ℝ) :
    Except String (List ℝ × List (List ℝ) × List (ℝ × ℝ × ι)) :=
  let lat_grid_size := grid_size_km / 111.0
  if lat_grid_size = 0 then .error "ZeroDivisionError: division by zero"
  else
    let lat_bins := arangeList min_lat (max_lat + lat_grid_size) lat_grid_size
    let nBands := lat_bins.length - 1
    if ∃ i ∈ List.range nBands, lonStep grid_size_km (latCenter lat_bins i) = 0 then
      .error "ZeroDivisionError: division by zero"
    else
      let lonBinsFor := fun i =>
        arangeList min_lon (max_lon + lonStep grid_size_km (latCenter lat_bins i))
          (lonStep grid_size_km (latCenter lat_bins i))
      let lon_bins_by_lat := (List.range nBands).map lonBinsFor
      let cell_centers := (List.range nBands).flatMap (fun i =>
        (binCenters (lonBinsFor i)).map (fun center_lon =>
          (latCenter lat_bins i, center_lon, fmt (latCenter lat_bins i) center_lon)))
      .ok (lat_bins, lon_bins_by_lat, cell_centers)

/-! ## `grid.py`: `create_grid_edges` -/

/-- Tail of `np.argmin(np.abs(arr - x))`: scan the remaining entries keeping
the index of the first strictly smaller value. -/
def argminAbsGo {α : Type} [LinearOrderedField α] (x : α) :
    List α → ℕ → α × ℕ → ℕ
  | [], _, best => best.2
  | a :: rest, i, best =>
    if |a - x| < best.1 then argminAbsGo x rest (i + 1) (|a - x|, i)
    else argminAbsGo x rest (i + 1) best

/-- `np.argmin(np.abs(np.array(xs) - x))`: index of the first entry of `xs`
minimizing `|xs[i] - x|`.  `np.argmin` raises on an empty array; callers
guard against that case, so the empty case here is junk (never reached in
the `.ok` branch of `createGridEdges`). -/
def argminAbs {α : Type} [LinearOrderedField α] (xs : List α) (x : α) : ℕ :=
  match xs with
  | [] => 0
  | a :: rest => argminAbsGo x rest 1 (|a - x|, 0)

/-- The grid id recomputed inside `create_grid_edges` for the cell at
`(lat_idx, lon_idx) = (i, j)`: `fmt` of the band center latitude and the
`j`-th longitude center of band `i`. -/
def cellIdOf {α ι : Type} [LinearOrderedField α] (fmt : α → α → ι)
    (latBins : List α) (lonCenters : List (List α)) (i j : ℕ) : ι :=
  fmt (latCenter latBins i) ((lonCenters.getD i []).getD j 0)

/-- The edges emitted by the loop body of `create_grid_edges` for the cell
`(i, j)`: the east edge, then (when a next band exists) the south edge to the
longitude-nearest cell and up to two diagonals. -/
def edgesFor {α ι : Type} [LinearOrderedField α] (fmt : α → α → ι)
    (latBins : List α) (lonCenters : List (List α)) (nB i j : ℕ) :
    List (ι × ι) :=
  let Li := lonCenters.getD i []
  (if j + 1 < Li.length then
    [(cellIdOf fmt latBins lonCenters i j, cellIdOf fmt latBins lonCenters i (j + 1))]
  else []) ++
  (if i + 1 < nB then
    let k := argminAbs (lonCenters.getD (i + 1) []) (Li.getD j 0)
    [(cellIdOf fmt latBins lonCenters i j, cellIdOf fmt latBins lonCenters (i + 1) k)] ++
    (if k + 1 < (lonCenters.getD (i + 1) []).length then
      [(cellIdOf fmt latBins lonCenters i j, cellIdOf fmt latBins lonCenters (i + 1) (k + 1))]
    else []) ++
    (if 0 < k then
      [(cellIdOf fmt latBins lonCenters i j, cellIdOf fmt latBins lonCenters (i + 1) (k - 1))]
    else [])
  else [])

/-- `lon_centers_by_lat` as recomputed inside `create_grid_edges` (grid.py
lines 112–118): the centers of each band's longitude bins. -/
def lonCentersOf {α : Type} [LinearOrderedField α]
    (latBins : List α) (lonBinsByLat : List (List α)) : List (List α) :=
  (List.range (latBins.length - 1)).map (fun i => binCenters (lonBinsByLat.getD i []))

/-- Shallow embedding of `create_grid_edges` (grid.py lines 95–174).
`lon_centers_by_lat` is recomputed from the bins exactly as in the source.
The `ValueError` raised by `np.argmin` on an empty array — reached exactly
when some band `i` with a successor band is nonempty while band `i+1` is
empty — is modelled by the up-front check.  The `cell_lookup.get` calls in
the source can never return `None` (every looked-up index pair is produced by
an enclosing loop bound), so no `Option` appears here. -/
def createGridEdges {α ι : Type} [LinearOrderedField α] (fmt : α → α → ι)
    (latBins : List α) (lonBinsByLat : List (List α)) :
    Except String (List (ι × ι)) :=
  let nB := latBins.length - 1
  let lonCenters := lonCentersOf latBins lonBinsByLat
  if (List.range nB).any (fun i =>
      decide (i + 1 < nB) && !(lonCenters.getD i []).isEmpty &&
      (lonCenters.getD (i + 1) []).isEmpty) then
    .error "ValueError: attempt to get argmin of an empty sequence"
  else
    .ok ((List.range nB).flatMap (fun i =>
      (List.range (lonCenters.getD i []).length).flatMap (fun j =>
        edgesFor fmt latBins lonCenters nB i j)))

/-- Neighbors of node `c` in the simple graph built (by `networkx`) from an
edge list: the distinct opposite endpoints of edges incident to `c`. -/
def neighborsOf {ι : Type} [DecidableEq ι] (E : List (ι × ι)) (c : ι) : List ι :=
  (E.filterMap (fun e =>
    if e.1 = c then some e.2 else if e.2 = c then some e.1 else none)).dedup

/-- Degree of node `c` in the simple graph built from an edge list. -/
def degreeOf {ι : Type} [DecidableEq ι] (E : List (ι × ι)) (c : ι) : ℕ :=
  (neighborsOf E c).length

/-! ## `parallel.py`: `create_node_batches` / graph_builder.py lines 189–196 -/

/-- Shallow embedding of `create_node_batches` (parallel.py lines 92–111) and
of the identical inline batch construction in `create_spatial_graph`
(graph_builder.py lines 189–196).  Python raises `ZeroDivisionError` on
`n_workers = 0`.  `List.range' 0 k bs` is `range(0, k*bs, bs)`; the count
`(n + bs - 1) / bs` is `⌈n / bs⌉`, the number of iterations of
`range(0, n, bs)`. -/
def createNodeBatches {σ : Type} (node_ids : List σ) (n_workers : ℕ) :
    Except String (List (ℕ × ℕ × List σ)) :=
  if n_workers = 0 then .error "ZeroDivisionError: integer division or modulo by zero"
  else
    let n := node_ids.length
    let batch_size := max 1 (n / n_workers)
    .ok ((List.range' 0 ((n + batch_size - 1) / batch_size) batch_size).map
      (fun i => (i, min (i + batch_size) n,
        (node_ids.drop i).take (min (i + batch_size) n - i))))

/-! ## `distance.py` -/

/-- `math.atan2` / `np.arctan2` on real numbers (signed zeros do not exist in
`ℝ`; only the `x ≥ 0` branches are reachable from the haversine formula). -/
noncomputable def atan2 (y x : ℝ) : ℝ :=
  if 0 < x then Real.arctan (y / x)
  else if x < 0 then
    (if 0 ≤ y then Real.arctan (y / x) + Real.pi else Real.arctan (y / x) - Real.pi)
  else if 0 < y then Real.pi / 2
  else if y < 0 then -(Real.pi / 2)
  else 0

/-- Shallow embedding of `fast_haversine` (distance.py lines 66–90): haversine
distance in km between two points given in radians, via `arctan2`.
`calculate_distance_km` (lines 34–63) computes the same expression after
converting its degree inputs with `math.radians`. -/
noncomputable def fastHaversine (lat1_rad lon1_rad lat2_rad lon2_rad : ℝ) : ℝ :=
  let R := 6371.0
  let dlat := lat2_rad - lat1_rad
  let dlon := lon2_rad - lon1_rad
  let a := Real.sin (dlat / 2) ^ 2 +
    Real.cos lat1_rad * Real.cos lat2_rad * Real.sin (dlon / 2) ^ 2
  let c := 2 * atan2 (Real.sqrt a) (Real.sqrt (1 - a))
  R * c

/-- Shallow embedding of `calculate_distance_km` (distance.py lines 34–63):
haversine distance in km between two points given in decimal degrees. -/
noncomputable def calculate_distance_km (lat1 lon1 lat2 lon2 : ℝ) : ℝ :=
  let R := 6371.0
  let lat1_rad := radians lat1
  let lon1_rad := radians lon1
  let lat2_rad := radians lat2
  let lon2_rad := radians lon2
  let dlat := lat2_rad - lat1_rad
  let dlon := lon2_rad - lon1_rad
  let a := Real.sin (dlat / 2) ^ 2 +
    Real.cos lat1_rad * Real.cos lat2_rad * Real.sin (dlon / 2) ^ 2
  let c := 2 * atan2 (Real.sqrt a) (Real.sqrt (1 - a))
  R * c

/-- Modelled from the documented behavior of the library call
`sklearn.metrics.pairwise.haversine_distances` used in the dense branch of
`calculate_haversine_distances`: the unit-sphere haversine distance
`2 * arcsin(sqrt(sin²(Δlat/2) + cos lat1 cos lat2 sin²(Δlon/2)))`
between two points given in radians. -/
noncomputable def sklearnHaversineRad (p q : ℝ × ℝ) : ℝ :=
  2 * Real.arcsin (Real.sqrt (Real.sin ((q.1 - p.1) / 2) ^ 2 +
    Real.cos p.1 * Real.cos q.1 * Real.sin ((q.2 - p.2) / 2) ^ 2))

/-- The dense branch of `calculate_haversine_distances` (distance.py lines
139–144): `haversine_distances(source_radians, target_radians) * 6371.0`.
All entries are finite. -/
noncomputable def denseHaversineMatrix (source target : List (ℝ × ℝ)) :
    List (List (WithTop ℝ)) :=
  source.map (fun p => target.map (fun q =>
    ((sklearnHaversineRad (radians p.1, radians p.2) (radians q.1, radians q.2)
      * 6371.0 : ℝ) : WithTop ℝ)))

/-- Squared Euclidean distance in (radian-latitude, radian-longitude) space;
`Real.sqrt` of it is the metric `scipy.spatial.cKDTree` queries with. -/
noncomputable def euclSq (p q : ℝ × ℝ) : ℝ := (p.1 - q.1) ^ 2 + (p.2 - q.2) ^ 2

/-- The accelerated branch of `calculate_haversine_distances` (distance.py
lines 109–138): the matrix starts as `np.full(..., np.inf)` (modelled by `⊤`);
for each source point, the targets within Euclidean-radian distance
`radius_km * 1.2 / 6371.0` (the `cKDTree.query_ball_point` prefilter, boundary
inclusive) get the exact `fast_haversine` distance. -/
noncomputable def sparseHaversineMatrix (source target : List (ℝ × ℝ))
    (radius_km : ℝ) : List (List (WithTop ℝ)) :=
  let source_radians := source.map (fun p => (radians p.1, radians p.2))
  let target_radians := target.map (fun p => (radians p.1, radians p.2))
  let search_radius_rad := radius_km * 1.2 / 6371.0
  source_radians.map (fun s => target_radians.map (fun t =>
    if Real.sqrt (euclSq s t) ≤ search_radius_rad then
      ((fastHaversine s.1 s.2 t.1 t.2 : ℝ) : WithTop ℝ)
    else ⊤))

/-- Shallow embedding of `calculate_haversine_distances` (distance.py lines
93–145): the accelerated branch is taken when a radius is supplied and
`len(source) * len(target) > 1000000`, the dense branch otherwise. -/
noncomputable def calculateHaversineDistances (source target : List (ℝ × ℝ))
    (radius_km : Option ℝ) : List (List (WithTop ℝ)) :=
  match radius_km with
  | some r =>
    if 1000000 < source.length * target.length then sparseHaversineMatrix source target r
    else denseHaversineMatrix source target
  | none => denseHaversineMatrix source target

/-! ## `graph_builder.py`: feature aggregation -/

/-- One row of the FIRMS fire table; `none` models a missing (`NaN`) value. -/
structure FireRow where
  latitude : ℝ
  longitude : ℝ
  bright_ti4 : Option ℝ
  frp : Option ℝ
deriving Inhabited

/-- The per-cell fire feature record.  Python initializes all four features
to the integer `0`; `avg_*`/`max_frp` can later be overwritten by pandas
reductions, whose `NaN` is modelled by `none`. -/
structure FireFeatures where
  fire_count : ℕ
  avg_bright_ti4 : Option ℝ
  avg_frp : Option ℝ
  max_frp : Option ℝ
deriving Inhabited

/-- `pandas.Series.mean()` with default `skipna=True`: the mean of the
non-missing values, `NaN` (= `none`) when there are none. -/
noncomputable def pdMean (xs : List (Option ℝ)) : Option ℝ :=
  let v := xs.filterMap id
  if v.isEmpty then none else some (v.sum / v.length)

/-- `pandas.Series.max()` with default `skipna=True`: the max of the
non-missing values, `NaN` (= `none`) when there are none. -/
noncomputable def pdMax (xs : List (Option ℝ)) : Option ℝ :=
  match xs.filterMap id with
  | [] => none
  | a :: rest => some (rest.foldl max a)

/-- `np.where(distances[i, :] <= radius_km)[0]`: the indices of the row
entries within the radius (`⊤` = `np.inf` never passes the test). -/
noncomputable def inRadiusIdx (row : List (WithTop ℝ)) (radius_km : ℝ) : List ℕ :=
  (List.range row.length).filter (fun j => row.getD j ⊤ ≤ (radius_km : WithTop ℝ))

/-- The fire feature record computed for one node of a batch from its
distance-matrix row (`process_node_features_fire`, graph_builder.py lines
40–59): the zero record, overwritten when some fire is within the radius. -/
noncomputable def fireFeaturesForRow (row : List (WithTop ℝ))
    (firms_df : List FireRow) (radius_km : ℝ) : FireFeatures :=
  let in_radius := inRadiusIdx row radius_km
  if in_radius.isEmpty then ⟨0, some 0, some 0, some 0⟩
  else
    let nearby_fires := in_radius.map (fun j => firms_df.getD j default)
    { fire_count := nearby_fires.length
      avg_bright_ti4 := pdMean (nearby_fires.map FireRow.bright_ti4)
      avg_frp := pdMean (nearby_fires.map FireRow.frp)
      max_frp :=
        if (nearby_fires.map FireRow.frp).all Option.isNone then some 0
        else pdMax (nearby_fires.map FireRow.frp) }

/-- Shallow embedding of `process_node_features_fire` (graph_builder.py lines
18–61).  The result is the per-node dictionary as the list of
`(node_id, features)` pairs in iteration order. -/
noncomputable def processNodeFeaturesFire (node_batch : ℕ × ℕ × List String)
    (node_coords_array : List (ℝ × ℝ)) (fire_coords : List (ℝ × ℝ))
    (firms_df : List FireRow) (radius_km : ℝ) : List (String × FireFeatures) :=
  let start_idx := node_batch.1
  let end_idx := node_batch.2.1
  let node_ids_batch := node_batch.2.2
  let batch_coords := (node_coords_array.drop start_idx).take (end_idx - start_idx)
  let distances := calculateHaversineDistances batch_coords fire_coords (some radius_km)
  node_ids_batch.enum.map (fun p =>
    (p.2, fireFeaturesForRow (distances.getD p.1 []) firms_df radius_km))

/-- The weather feature dictionary computed for one node of a batch from its
distance-matrix row (`process_node_features_weather`, graph_builder.py lines
95–112): empty when no weather point is within the radius, otherwise one
`prefix<column>` key per numeric column, holding the mean of the column over
the selected rows sorted ascending by distance (the sort of lines 104–107;
it only reorders the rows being averaged). -/
noncomputable def weatherFeaturesForRow (row : List (WithTop ℝ))
    (numeric_cols : List (String × List (Option ℝ))) (radius_km : ℝ)
    (pfx : String) : List (String × Option ℝ) :=
  let in_radius := inRadiusIdx row radius_km
  if in_radius.isEmpty then []
  else
    let sorted_sel :=
      if 1 < in_radius.length then
        in_radius.mergeSort (fun j1 j2 => row.getD j1 ⊤ ≤ row.getD j2 ⊤)
      else in_radius
    numeric_cols.map (fun c =>
      (pfx ++ c.1, pdMean (sorted_sel.map (fun j => c.2.getD j none))))

/-- Shallow embedding of `process_node_features_weather` (graph_builder.py
lines 64–114).  `weather_df` is the weather table seen through
`select_dtypes`: its named numeric columns (values aligned with the rows,
`none` modelling `NaN`); the columns named `latitude`/`longitude` are then
removed exactly as in lines 87–88. -/
noncomputable def processNodeFeaturesWeather (node_batch : ℕ × ℕ × List String)
    (node_coords_array : List (ℝ × ℝ)) (weather_coords : List (ℝ × ℝ))
    (weather_df : List (String × List (Option ℝ))) (radius_km : ℝ) (is_forecast : Bool) :
    List (String × List (String × Option ℝ)) :=
  let start_idx := node_batch.1
  let end_idx := node_batch.2.1
  let node_ids_batch := node_batch.2.2
  let batch_coords := (node_coords_array.drop start_idx).take (end_idx - start_idx)
  let distances := calculateHaversineDistances batch_coords weather_coords (some radius_km)
  let numeric_cols := weather_df.filter
    (fun c => !(c.1 == "latitude" || c.1 == "longitude"))
  let pfx := if is_forecast then "forecast_" else "current_"
  node_ids_batch.enum.map (fun p =>
    (p.2, weatherFeaturesForRow (distances.getD p.1 []) numeric_cols radius_km pfx))

/-- `d.update(u)` on a Python dict modelled as an association list: existing
keys are overwritten in place (keeping their position), new keys are appended
in order.  Only the lookup behavior of the result is used by the theorems. -/
def pyDictUpdate {V : Type} (d u : List (String × V)) : List (String × V) :=
  d.map (fun kv =>
    match u.lookup kv.1 with
    | some v => (kv.1, v)
    | none => kv) ++
  u.filter (fun kv => (d.lookup kv.1).isNone)

/-! ## Theorems: batch construction (C8) -/

/-- Flattening the contiguous slices starting at `i, i+bs, …` (`k` of them)
recovers `l.drop i`, as soon as the slices reach past the end of `l`. -/
lemma flatten_slices {σ : Type} (l : List σ) (bs : ℕ) :
    ∀ k i, l.length ≤ i + k * bs →
      ((List.range' i k bs).map
        (fun s => (l.drop s).take (min (s + bs) l.length - s))).flatten = l.drop i := by
  intro k
  induction k with
  | zero =>
    intro i h
    simp only [Nat.zero_mul, Nat.add_zero] at h
    simp [List.drop_eq_nil_of_le h]
  | succ k ih =>
    intro i h
    rw [List.range'_succ]
    simp only [List.map_cons, List.flatten_cons]
    rw [ih (i + bs) (le_of_le_of_eq h (by ring))]
    have hd : l.drop (i + bs) = (l.drop i).drop bs := by rw [List.drop_drop, Nat.add_comm]
    rcases le_or_lt (i + bs) l.length with hle | hlt
    · have hm : min (i + bs) l.length - i = bs := by omega
      rw [hm, hd, List.take_append_drop]
    · have hm : min (i + bs) l.length - i = l.length - i := by omega
      have h1 : (l.drop i).take (l.length - i) = l.drop i :=
        List.take_of_length_le (by simp)
      have h2 : (l.drop i).drop bs = [] :=
        List.drop_eq_nil_of_le (by simp only [List.length_drop]; omega)
      rw [hm, hd, h1, h2, List.append_nil]

/-- `⌈n / bs⌉ * bs` reaches `n`. -/
lemma le_ceilcount_mul (n bs : ℕ) (hbs : 0 < bs) : n ≤ (n + bs - 1) / bs * bs := by
  have h1 := Nat.div_add_mod (n + bs - 1) bs
  have h2 := Nat.mod_lt (n + bs - 1) hbs
  rw [Nat.mul_comm]
  generalize bs * ((n + bs - 1) / bs) = m at h1 ⊢
  omega

/-- C8, amended: for a cell list of length `N` and a worker count `n ≥ 1`,
`create_node_batches` partitions the cells into contiguous batches of size
`max 1 (⌊N/n⌋)` — not `⌈N/n⌉` — (the last batch possibly smaller), each batch
carrying its start index, end index `min(start + size, N)` and the
corresponding cell id slice, and the concatenation of the slices is the
original cell list. -/
theorem claim_C8 {σ : Type} (ids : List σ) (n_workers : ℕ) (hw : 0 < n_workers)
    (B : List (ℕ × ℕ × List σ)) (hB : createNodeBatches ids n_workers = .ok B) :
    ((B.map (fun b => b.2.2)).flatten = ids) ∧
    (∀ t b, B[t]? = some b →
      b.1 = t * max 1 (ids.length / n_workers) ∧
      b.2.1 = min (b.1 + max 1 (ids.length / n_workers)) ids.length ∧
      b.2.2 = (ids.drop b.1).take (b.2.1 - b.1) ∧
      (t + 1 < B.length → b.2.2.length = max 1 (ids.length / n_workers))) := by
  have hne : n_workers ≠ 0 := hw.ne'
  simp only [createNodeBatches, if_neg hne, Except.ok.injEq] at hB
  subst hB
  set n := ids.length with hn
  set bs := max 1 (n / n_workers) with hbs
  have hbs0 : 0 < bs := lt_of_lt_of_le Nat.zero_lt_one (le_max_left _ _)
  set cnt := (n + bs - 1) / bs with hcnt
  constructor
  · rw [List.map_map]
    have := flatten_slices ids bs cnt 0 (by simpa using le_ceilcount_mul n bs hbs0)
    simpa using this
  · intro t b hb
    rw [List.getElem?_map] at hb
    rcases ht : (List.range' 0 cnt bs)[t]? with _ | s
    · rw [ht] at hb
      exact Option.noConfusion hb
    · rw [ht] at hb
      have htlt : t < cnt := by
        by_contra hge
        rw [List.getElem?_eq_none (by simpa using Nat.le_of_not_lt hge)] at ht
        exact Option.noConfusion ht
      rw [List.getElem?_range' 0 bs htlt] at ht
      replace ht := Option.some.inj ht
      replace hb := Option.some.inj hb
      subst hb
      refine ⟨by simp [← ht, Nat.mul_comm], by simp [← ht], by simp, ?_⟩
      intro hlast
      rw [List.length_map, List.length_range'] at hlast
      have hc2 : t + 2 ≤ cnt := hlast
      have h3 : bs * (t + 2) ≤ bs * cnt := Nat.mul_le_mul_left bs hc2
      have h4 : bs * (t + 2) = bs * t + 2 * bs := by ring
      rw [h4] at h3
      have h1 := Nat.div_add_mod (n + bs - 1) bs
      have h2 := Nat.mod_lt (n + bs - 1) hbs0
      rw [← hcnt] at h1
      have hend : bs * t + bs ≤ n := by
        generalize bs * t = A at h3 ⊢
        generalize bs * cnt = C at h3 h1
        omega
      rw [← ht]
      simp only [List.length_take, List.length_drop]
      generalize bs * t = A at hend ⊢
      omega

/-- C8, counterexample to the claim as stated: with 10 cells and 4 workers the
code produces five contiguous batches of size `max 1 (10 // 4) = 2`, not
batches of size `⌈10/4⌉ = 3`. -/
theorem claim_C8_counterexample :
    createNodeBatches (List.range 10) 4 =
      .ok [(0, 2, [0, 1]), (2, 4, [2, 3]), (4, 6, [4, 5]),
           (6, 8, [6, 7]), (8, 10, [8, 9])] ∧
    (10 + 4 - 1) / 4 = 3 ∧
    (∀ b ∈ [(0, 2, [0, 1]), (2, 4, [2, 3]), (4, 6, [4, 5]),
            (6, 8, [6, 7]), (8, 10, [8, 9])], b.2.2.length ≠ 3) := by
  refine ⟨rfl, by decide, by decide⟩

/-- Witness for `claim_C8` at the concrete input of the counterexample. -/
theorem claim_C8_witness :
    ((([(0, 2, [0, 1]), (2, 4, [2, 3]), (4, 6, [4, 5]),
        (6, 8, [6, 7]), (8, 10, [8, 9])] : List (ℕ × ℕ × List ℕ)).map
          (fun b => b.2.2)).flatten = List.range 10) ∧
    (∀ t b, ([(0, 2, [0, 1]), (2, 4, [2, 3]), (4, 6, [4, 5]),
        (6, 8, [6, 7]), (8, 10, [8, 9])] : List (ℕ × ℕ × List ℕ))[t]? = some b →
      b.1 = t * max 1 ((List.range 10).length / 4) ∧
      b.2.1 = min (b.1 + max 1 ((List.range 10).length / 4)) (List.range 10).length ∧
      b.2.2 = ((List.range 10).drop b.1).take (b.2.1 - b.1) ∧
      (t + 1 < ([(0, 2, [0, 1]), (2, 4, [2, 3]), (4, 6, [4, 5]),
        (6, 8, [6, 7]), (8, 10, [8, 9])] : List (ℕ × ℕ × List ℕ)).length →
        b.2.2.length = max 1 ((List.range 10).length / 4))) :=
  claim_C8 (List.range 10) 4 (by decide) _ rfl

/-! ## Theorems: degenerate grid input (C1) -/

lemma arangeList_length {α : Type} [LinearOrderedField α] [FloorRing α]
    (start stop step : α) :
    (arangeList start stop step).length = (⌈(stop - start) / step⌉).toNat := by
  rw [arangeList, List.length_map, List.length_range]

/-- C1, amended: `create_grid_cells` performs no input validation.  For
`min_lat ≥ max_lat` together with a positive `grid_size_km` it does not
report any configuration error: it silently returns a degenerate grid with at
most one latitude bin edge, no latitude band, and an empty cell list. -/
theorem claim_C1 {ι : Type} (fmt : ℝ → ℝ → ι) (min_lat max_lat min_lon max_lon gs : ℝ)
    (hdeg : max_lat ≤ min_lat) (hgs : 0 < gs) :
    ∃ latBins : List ℝ,
      createGridCells fmt min_lat max_lat min_lon max_lon gs = .ok (latBins, [], []) ∧
      latBins.length ≤ 1 := by
  have hstep : (0 : ℝ) < gs / 111.0 := by positivity
  have hlen : (arangeList min_lat (max_lat + gs / 111.0) (gs / 111.0)).length ≤ 1 := by
    rw [arangeList_length]
    have hx : (max_lat + gs / 111.0 - min_lat) / (gs / 111.0) ≤ 1 := by
      rw [div_le_one hstep]
      linarith
    have hceil : ⌈(max_lat + gs / 111.0 - min_lat) / (gs / 111.0)⌉ ≤ 1 := by
      simpa using Int.ceil_le.mpr (by simpa using hx)
    omega
  refine ⟨arangeList min_lat (max_lat + gs / 111.0) (gs / 111.0), ?_, hlen⟩
  have hB : (arangeList min_lat (max_lat + gs / 111.0) (gs / 111.0)).length - 1 = 0 := by
    omega
  simp only [createGridCells, if_neg hstep.ne', hB, List.range_zero, List.not_mem_nil,
    false_and, exists_false, if_false, List.map_nil, List.flatMap_nil]

/-- C1, counterexample to the claim as stated: for the degenerate bounding box
`min_lat = 70 ≥ 30 = max_lat` (a valid cell size of 10 km), `create_grid_cells`
does not fail fast with a configuration error — it silently returns an empty
grid. -/
theorem claim_C1_counterexample :
    createGridCells (fun la lo => (la, lo)) 70 30 (-130) (-100) 10 = .ok ([], [], []) ∧
    ¬ ∃ e, createGridCells (fun la lo => (la, lo)) 70 30 (-130) (-100) 10 = .error e := by
  have hbins : arangeList (70 : ℝ) (30 + 10 / 111.0) (10 / 111.0) = [] := by
    rw [arangeList,
      show ((30 : ℝ) + 10 / 111.0 - 70) / (10 / 111.0) = ((-443 : ℤ) : ℝ) by norm_num,
      Int.ceil_intCast]
    rfl
  have hok : createGridCells (fun la lo : ℝ => (la, lo)) 70 30 (-130) (-100) 10 =
      .ok ([], [], []) := by
    simp only [createGridCells, if_neg (by norm_num : ¬((10 : ℝ) / 111.0 = 0)), hbins]
    simp
  exact ⟨hok, by rw [hok]; rintro ⟨e, he⟩; exact Except.noConfusion he⟩

/-- Witness for `claim_C1` at a concrete degenerate input. -/
theorem claim_C1_witness :
    ∃ latBins : List ℝ,
      createGridCells (fun la lo => (la, lo)) 50 40 (-130) (-100) 10 =
        .ok (latBins, [], []) ∧ latBins.length ≤ 1 :=
  claim_C1 (fun la lo => (la, lo)) 50 40 (-130) (-100) 10 (by norm_num) (by norm_num)

/-! ## Haversine analysis: shared lemmas -/

lemma atan2_nonneg {y x : ℝ} (hy : 0 ≤ y) (hx : 0 ≤ x) : 0 ≤ atan2 y x := by
  rw [atan2]
  split_ifs
  · have hq : (0 : ℝ) ≤ y / x := div_nonneg hy hx
    have := Real.arctan_strictMono.monotone hq
    simpa [Real.arctan_zero] using this
  all_goals linarith [Real.pi_pos]

lemma atan2_zero_one : atan2 0 1 = 0 := by
  rw [atan2, if_pos (by norm_num : (0 : ℝ) < 1)]
  simp [Real.arctan_zero]

/-- The haversine quantity `a` in the "sum of squares" form of the source
equals the central-angle form `(1 - (sin φ₁ sin φ₂ + cos φ₁ cos φ₂ cos Δλ))/2`. -/
lemma havA_eq (l1 o1 l2 o2 : ℝ) :
    Real.sin ((l2 - l1) / 2) ^ 2 +
      Real.cos l1 * Real.cos l2 * Real.sin ((o2 - o1) / 2) ^ 2 =
    (1 - (Real.sin l1 * Real.sin l2 +
      Real.cos l1 * Real.cos l2 * Real.cos (o2 - o1))) / 2 := by
  have h1 : Real.sin ((l2 - l1) / 2) ^ 2 = 1 / 2 - Real.cos (l2 - l1) / 2 := by
    rw [Real.sin_sq, Real.cos_sq, show 2 * ((l2 - l1) / 2) = l2 - l1 by ring]
    ring
  have h2 : Real.sin ((o2 - o1) / 2) ^ 2 = 1 / 2 - Real.cos (o2 - o1) / 2 := by
    rw [Real.sin_sq, Real.cos_sq, show 2 * ((o2 - o1) / 2) = o2 - o1 by ring]
    ring
  rw [h1, h2, Real.cos_sub]
  ring

/-- The "dot product of unit vectors" is in `[-1, 1]`. -/
lemma havD_bounds (l1 l2 x : ℝ) (hx1 : -1 ≤ x) (hx2 : x ≤ 1) :
    -1 ≤ Real.sin l1 * Real.sin l2 + Real.cos l1 * Real.cos l2 * x ∧
    Real.sin l1 * Real.sin l2 + Real.cos l1 * Real.cos l2 * x ≤ 1 := by
  have hsub1 := Real.cos_le_one (l1 - l2)
  have hsub2 := Real.neg_one_le_cos (l1 - l2)
  have hadd1 := Real.cos_le_one (l1 + l2)
  have hadd2 := Real.neg_one_le_cos (l1 + l2)
  rw [Real.cos_sub] at hsub1 hsub2
  rw [Real.cos_add] at hadd1 hadd2
  constructor
  · nlinarith [mul_nonneg (by linarith : (0 : ℝ) ≤ 1 + x)
        (by nlinarith : (0 : ℝ) ≤ 1 + (Real.cos l1 * Real.cos l2 + Real.sin l1 * Real.sin l2)),
      mul_nonneg (by linarith : (0 : ℝ) ≤ 1 - x)
        (by nlinarith : (0 : ℝ) ≤ 1 - (Real.cos l1 * Real.cos l2 - Real.sin l1 * Real.sin l2))]
  · nlinarith [mul_nonneg (by linarith : (0 : ℝ) ≤ 1 + x)
        (by nlinarith : (0 : ℝ) ≤ 1 - (Real.cos l1 * Real.cos l2 + Real.sin l1 * Real.sin l2)),
      mul_nonneg (by linarith : (0 : ℝ) ≤ 1 - x)
        (by nlinarith : (0 : ℝ) ≤ 1 + (Real.cos l1 * Real.cos l2 - Real.sin l1 * Real.sin l2))]

lemma havA_nonneg (l1 o1 l2 o2 : ℝ) :
    0 ≤ Real.sin ((l2 - l1) / 2) ^ 2 +
      Real.cos l1 * Real.cos l2 * Real.sin ((o2 - o1) / 2) ^ 2 := by
  rw [havA_eq]
  have := (havD_bounds l1 l2 (Real.cos (o2 - o1))
    (Real.neg_one_le_cos _) (Real.cos_le_one _)).2
  linarith

lemma havA_le_one (l1 o1 l2 o2 : ℝ) :
    Real.sin ((l2 - l1) / 2) ^ 2 +
      Real.cos l1 * Real.cos l2 * Real.sin ((o2 - o1) / 2) ^ 2 ≤ 1 := by
  rw [havA_eq]
  have := (havD_bounds l1 l2 (Real.cos (o2 - o1))
    (Real.neg_one_le_cos _) (Real.cos_le_one _)).1
  linarith

/-- For `a ∈ [0, 1]`, the `arctan2` form of the haversine central angle
agrees with the `arcsin` form. -/
lemma atan2_sqrt_eq_arcsin {a : ℝ} (h0 : 0 ≤ a) (h1 : a ≤ 1) :
    atan2 (Real.sqrt a) (Real.sqrt (1 - a)) = Real.arcsin (Real.sqrt a) := by
  rcases lt_or_eq_of_le h1 with hlt | heq
  · have hx : 0 < Real.sqrt (1 - a) := Real.sqrt_pos.mpr (by linarith)
    rw [atan2, if_pos hx]
    have hsa : Real.sqrt a < 1 := by
      have := Real.sqrt_lt_sqrt h0 hlt
      simpa [Real.sqrt_one] using this
    have hmem : Real.sqrt a ∈ Set.Ioo (-1 : ℝ) 1 :=
      ⟨lt_of_lt_of_le (by norm_num) (Real.sqrt_nonneg a), hsa⟩
    rw [Real.arcsin_eq_arctan hmem, Real.sq_sqrt h0]
  · subst heq
    norm_num [atan2, Real.sqrt_one, Real.sqrt_zero, Real.arcsin_one]

/-- `fast_haversine` (the `arctan2` form on radian inputs) coincides with the
sklearn dense-mode distance (the `arcsin` form) scaled by the Earth radius. -/
lemma fastHaversine_eq_sklearn (p q : ℝ × ℝ) :
    fastHaversine p.1 p.2 q.1 q.2 = sklearnHaversineRad p q * 6371.0 := by
  simp only [fastHaversine, sklearnHaversineRad]
  rw [atan2_sqrt_eq_arcsin (havA_nonneg p.1 p.2 q.1 q.2) (havA_le_one p.1 p.2 q.1 q.2)]
  ring

lemma sklearnHaversineRad_nonneg (p q : ℝ × ℝ) : 0 ≤ sklearnHaversineRad p q := by
  rw [sklearnHaversineRad]
  have := Real.arcsin_nonneg.mpr (Real.sqrt_nonneg
    (Real.sin ((q.1 - p.1) / 2) ^ 2 +
      Real.cos p.1 * Real.cos q.1 * Real.sin ((q.2 - p.2) / 2) ^ 2))
  linarith

lemma fastHaversine_nonneg (l1 o1 l2 o2 : ℝ) : 0 ≤ fastHaversine l1 o1 l2 o2 := by
  rw [fastHaversine_eq_sklearn (l1, o1) (l2, o2)]
  have := sklearnHaversineRad_nonneg (l1, o1) (l2, o2)
  nlinarith

lemma sklearnHaversineRad_self (p : ℝ × ℝ) : sklearnHaversineRad p p = 0 := by
  simp [sklearnHaversineRad, Real.arcsin_zero]

lemma sklearnHaversineRad_symm (p q : ℝ × ℝ) :
    sklearnHaversineRad p q = sklearnHaversineRad q p := by
  simp only [sklearnHaversineRad]
  rw [show (p.1 - q.1) / 2 = -((q.1 - p.1) / 2) by ring,
    show (p.2 - q.2) / 2 = -((q.2 - p.2) / 2) by ring]
  simp only [Real.sin_neg]
  rw [mul_comm (Real.cos q.1) (Real.cos p.1)]
  ring_nf

/-! ## Theorems: distance symmetry and self-distance (C4) -/

/-- C4, confirmed: the haversine distance of `calculate_distance_km`
(exact mode, Earth radius 6371 km) vanishes on equal coordinate pairs and is
symmetric, and so are the entries of the dense-mode distance matrix of
`calculate_haversine_distances`. -/
theorem claim_C4 (lat1 lon1 lat2 lon2 : ℝ) :
    calculate_distance_km lat1 lon1 lat1 lon1 = 0 ∧
    calculate_distance_km lat1 lon1 lat2 lon2 = calculate_distance_km lat2 lon2 lat1 lon1 ∧
    denseHaversineMatrix [(lat1, lon1)] [(lat1, lon1)] = [[((0 : ℝ) : WithTop ℝ)]] ∧
    denseHaversineMatrix [(lat1, lon1)] [(lat2, lon2)] =
      denseHaversineMatrix [(lat2, lon2)] [(lat1, lon1)] := by
  refine ⟨?_, ?_, ?_, ?_⟩
  · simp [calculate_distance_km, sub_self, Real.sqrt_zero, Real.sqrt_one, atan2_zero_one]
  · simp only [calculate_distance_km]
    rw [show radians lat1 - radians lat2 = -(radians lat2 - radians lat1) by ring,
      show radians lon1 - radians lon2 = -(radians lon2 - radians lon1) by ring,
      neg_div, neg_div]
    simp only [Real.sin_neg]
    rw [mul_comm (Real.cos (radians lat2)) (Real.cos (radians lat1))]
    ring_nf
  · simp [denseHaversineMatrix, sklearnHaversineRad_self]
  · simp [denseHaversineMatrix, sklearnHaversineRad_symm (radians lat1, radians lon1)]

/-! ## Matrix entry lemmas -/

lemma getD_map_of_lt {β γ : Type} (l : List β) (f : β → γ) (i : ℕ) (d : γ)
    (hi : i < l.length) : (l.map f).getD i d = f (l.get ⟨i, hi⟩) := by
  rw [List.getD_eq_getElem _ _ (by simpa using hi), List.getElem_map,
    List.get_eq_getElem]

/-- Entry `(i, j)` of the dense matrix. -/
lemma denseHaversineMatrix_entry (s t : List (ℝ × ℝ)) (i j : ℕ)
    (hi : i < s.length) (hj : j < t.length) :
    ((denseHaversineMatrix s t).getD i []).getD j ⊤ =
      ((sklearnHaversineRad
          (radians (s.get ⟨i, hi⟩).1, radians (s.get ⟨i, hi⟩).2)
          (radians (t.get ⟨j, hj⟩).1, radians (t.get ⟨j, hj⟩).2) * 6371.0 : ℝ) :
        WithTop ℝ) := by
  rw [denseHaversineMatrix, getD_map_of_lt s _ i [] hi, getD_map_of_lt t _ j ⊤ hj]

/-- Entry `(i, j)` of the accelerated matrix. -/
lemma sparseHaversineMatrix_entry (s t : List (ℝ × ℝ)) (r : ℝ) (i j : ℕ)
    (hi : i < s.length) (hj : j < t.length) :
    ((sparseHaversineMatrix s t r).getD i []).getD j ⊤ =
      (if Real.sqrt (euclSq
            (radians (s.get ⟨i, hi⟩).1, radians (s.get ⟨i, hi⟩).2)
            (radians (t.get ⟨j, hj⟩).1, radians (t.get ⟨j, hj⟩).2)) ≤
          r * 1.2 / 6371.0 then
        ((fastHaversine (radians (s.get ⟨i, hi⟩).1) (radians (s.get ⟨i, hi⟩).2)
          (radians (t.get ⟨j, hj⟩).1) (radians (t.get ⟨j, hj⟩).2) : ℝ) : WithTop ℝ)
      else ⊤) := by
  simp only [sparseHaversineMatrix, List.map_map]
  rw [getD_map_of_lt s _ i [] hi]
  simp only [Function.comp_apply]
  rw [getD_map_of_lt t _ j ⊤ hj]
  simp only [Function.comp_apply]

/-- Row `i` of the dense matrix has one entry per target. -/
lemma denseHaversineMatrix_row_length (s t : List (ℝ × ℝ)) (i : ℕ) :
    ((denseHaversineMatrix s t).getD i []).length =
      if i < s.length then t.length else 0 := by
  rcases lt_or_le i s.length with hi | hi
  · rw [if_pos hi, denseHaversineMatrix, getD_map_of_lt s _ i [] hi, List.length_map]
  · rw [if_neg (not_lt.mpr hi), denseHaversineMatrix,
      List.getD_eq_default _ _ (by simpa using hi)]
    rfl

/-- Row `i` of the accelerated matrix has one entry per target. -/
lemma sparseHaversineMatrix_row_length (s t : List (ℝ × ℝ)) (r : ℝ) (i : ℕ) :
    ((sparseHaversineMatrix s t r).getD i []).length =
      if i < s.length then t.length else 0 := by
  rcases lt_or_le i s.length with hi | hi
  · rw [if_pos hi]
    simp only [sparseHaversineMatrix, List.map_map]
    rw [getD_map_of_lt s _ i [] hi]
    simp only [Function.comp_apply, List.length_map]
  · rw [if_neg (not_lt.mpr hi)]
    simp only [sparseHaversineMatrix, List.map_map]
    rw [List.getD_eq_default _ _ (by simpa using hi)]
    rfl

/-- Row `i` of either matrix mode has one entry per target (and a row read out
of bounds is empty). -/
lemma calculateHaversineDistances_row_length (s t : List (ℝ × ℝ))
    (ρ : Option ℝ) (i : ℕ) :
    ((calculateHaversineDistances s t ρ).getD i []).length =
      if i < s.length then t.length else 0 := by
  rcases ρ with _ | r
  · exact denseHaversineMatrix_row_length s t i
  · rw [calculateHaversineDistances]
    by_cases hbig : 1000000 < s.length * t.length
    · rw [if_pos hbig]
      exact sparseHaversineMatrix_row_length s t r i
    · rw [if_neg hbig]
      exact denseHaversineMatrix_row_length s t i

/-! ## Theorems: accelerated mode refines dense mode (C9) -/

/-- C9, confirmed: in the accelerated mode (radius supplied and more than
10⁶ pairs), every finite matrix entry equals the exact haversine distance
between source point `i` and target point `j` — the same value the dense mode
produces for that pair; the approximation can only replace entries by `∞`. -/
theorem claim_C9 (source target : List (ℝ × ℝ)) (r d : ℝ) (i j : ℕ)
    (hbig : 1000000 < source.length * target.length)
    (hi : i < source.length) (hj : j < target.length)
    (hfin : ((calculateHaversineDistances source target (some r)).getD i []).getD j ⊤ =
      ((d : ℝ) : WithTop ℝ)) :
    d = fastHaversine (radians (source.get ⟨i, hi⟩).1) (radians (source.get ⟨i, hi⟩).2)
        (radians (target.get ⟨j, hj⟩).1) (radians (target.get ⟨j, hj⟩).2) ∧
    ((denseHaversineMatrix source target).getD i []).getD j ⊤ = ((d : ℝ) : WithTop ℝ) := by
  rw [calculateHaversineDistances, if_pos hbig,
    sparseHaversineMatrix_entry source target r i j hi hj] at hfin
  split_ifs at hfin with hball
  · have hd : fastHaversine (radians (source.get ⟨i, hi⟩).1) (radians (source.get ⟨i, hi⟩).2)
        (radians (target.get ⟨j, hj⟩).1) (radians (target.get ⟨j, hj⟩).2) = d := by
      exact_mod_cast hfin
    refine ⟨hd.symm, ?_⟩
    rw [denseHaversineMatrix_entry source target i j hi hj, ← hd,
      fastHaversine_eq_sklearn (radians (source.get ⟨i, hi⟩).1, radians (source.get ⟨i, hi⟩).2)
        (radians (target.get ⟨j, hj⟩).1, radians (target.get ⟨j, hj⟩).2)]
  · exact absurd hfin (by simp)

set_option maxRecDepth 8000 in
/-- Evaluation helper: the accelerated matrix of two constant-zero coordinate
lists (1001 × 1000 points, above the threshold) has `(0,0)`-entry `0`. -/
lemma sparse_entry_zero_eval :
    ((calculateHaversineDistances (List.replicate 1001 ((0 : ℝ), (0 : ℝ)))
        (List.replicate 1000 ((0 : ℝ), (0 : ℝ))) (some 10)).getD 0 []).getD 0 ⊤ =
      ((0 : ℝ) : WithTop ℝ) := by
  have hrad : radians 0 = 0 := by simp [radians]
  have hfh : fastHaversine (radians 0) (radians 0) (radians 0) (radians 0) = 0 := by
    rw [fastHaversine_eq_sklearn (radians 0, radians 0) (radians 0, radians 0),
      sklearnHaversineRad_self]
    ring
  rw [calculateHaversineDistances,
    if_pos (by rw [List.length_replicate, List.length_replicate]; norm_num : 1000000 <
      (List.replicate 1001 ((0 : ℝ), (0 : ℝ))).length *
      (List.replicate 1000 ((0 : ℝ), (0 : ℝ))).length),
    sparseHaversineMatrix_entry _ _ 10 0 0 (by simp) (by simp)]
  rw [if_pos]
  · simp only [List.get_eq_getElem, List.getElem_replicate, hfh]
  · simp only [List.get_eq_getElem, List.getElem_replicate, euclSq, hrad]
    rw [show ((0 : ℝ) - 0) ^ 2 + ((0 : ℝ) - 0) ^ 2 = 0 by ring, Real.sqrt_zero]
    norm_num

set_option maxRecDepth 8000 in
/-- Witness for `claim_C9` at the concrete input of `sparse_entry_zero_eval`. -/
theorem claim_C9_witness :
    (0 : ℝ) = fastHaversine
        (radians ((List.replicate 1001 ((0 : ℝ), (0 : ℝ))).get
          ⟨0, by simp⟩).1)
        (radians ((List.replicate 1001 ((0 : ℝ), (0 : ℝ))).get
          ⟨0, by simp⟩).2)
        (radians ((List.replicate 1000 ((0 : ℝ), (0 : ℝ))).get
          ⟨0, by simp⟩).1)
        (radians ((List.replicate 1000 ((0 : ℝ), (0 : ℝ))).get
          ⟨0, by simp⟩).2) ∧
    ((denseHaversineMatrix (List.replicate 1001 ((0 : ℝ), (0 : ℝ)))
        (List.replicate 1000 ((0 : ℝ), (0 : ℝ)))).getD 0 []).getD 0 ⊤ =
      ((0 : ℝ) : WithTop ℝ) :=
  claim_C9 (List.replicate 1001 ((0 : ℝ), (0 : ℝ)))
    (List.replicate 1000 ((0 : ℝ), (0 : ℝ))) 10 0 0 0
    (by rw [List.length_replicate, List.length_replicate]; norm_num)
    (by rw [List.length_replicate]; norm_num)
    (by rw [List.length_replicate]; norm_num) sparse_entry_zero_eval

/-! ## Theorems: radius monotonicity of the fire count (C5) -/

lemma calculateHaversineDistances_length (s t : List (ℝ × ℝ)) (ρ : Option ℝ) :
    (calculateHaversineDistances s t ρ).length = s.length := by
  rcases ρ with _ | r
  · simp [calculateHaversineDistances, denseHaversineMatrix]
  · rw [calculateHaversineDistances]
    by_cases hbig : 1000000 < s.length * t.length
    · rw [if_pos hbig]
      simp [sparseHaversineMatrix]
    · rw [if_neg hbig]
      simp [denseHaversineMatrix]

/-- If entry `(i, j)` passes the radius test at radius `r1 ≤ r2`, it also
passes it at radius `r2` (the accelerated prefilter ball grows with the
radius, and a passed entry is the radius-independent exact distance). -/
lemma entry_radius_mono (s t : List (ℝ × ℝ)) (r1 r2 : ℝ) (hr : r1 ≤ r2) (i j : ℕ)
    (h : ((calculateHaversineDistances s t (some r1)).getD i []).getD j ⊤ ≤
      ((r1 : ℝ) : WithTop ℝ)) :
    ((calculateHaversineDistances s t (some r2)).getD i []).getD j ⊤ ≤
      ((r2 : ℝ) : WithTop ℝ) := by
  rcases lt_or_le i s.length with hi | hi
  · rcases lt_or_le j t.length with hj | hj
    · rw [calculateHaversineDistances] at h ⊢
      by_cases hbig : 1000000 < s.length * t.length
      · rw [if_pos hbig] at h ⊢
        rw [sparseHaversineMatrix_entry s t r1 i j hi hj] at h
        rw [sparseHaversineMatrix_entry s t r2 i j hi hj]
        split_ifs at h with hball
        · have hhav : fastHaversine (radians (s.get ⟨i, hi⟩).1) (radians (s.get ⟨i, hi⟩).2)
              (radians (t.get ⟨j, hj⟩).1) (radians (t.get ⟨j, hj⟩).2) ≤ r1 :=
            WithTop.coe_le_coe.mp h
          have hr1 : (0 : ℝ) ≤ r1 := le_trans (fastHaversine_nonneg _ _ _ _) hhav
          rw [if_pos (le_trans hball (by nlinarith))]
          exact WithTop.coe_le_coe.mpr (le_trans hhav hr)
        · exact absurd h (WithTop.not_top_le_coe r1)
      · rw [if_neg hbig] at h ⊢
        exact le_trans h (WithTop.coe_le_coe.mpr hr)
    · exfalso
      rw [List.getD_eq_default _ _ (by
        rw [calculateHaversineDistances_row_length, if_pos hi]
        exact hj)] at h
      exact WithTop.not_top_le_coe r1 h
  · exfalso
    have hrow : (calculateHaversineDistances s t (some r1)).getD i [] = [] :=
      List.getD_eq_default _ _ (by rw [calculateHaversineDistances_length]; exact hi)
    rw [hrow] at h
    exact WithTop.not_top_le_coe r1 h

/-- The `fire_count` feature is the number of in-radius indices. -/
lemma fireFeaturesForRow_fire_count (row : List (WithTop ℝ)) (firms_df : List FireRow)
    (radius_km : ℝ) :
    (fireFeaturesForRow row firms_df radius_km).fire_count =
      (inRadiusIdx row radius_km).length := by
  rw [fireFeaturesForRow]
  by_cases h : (inRadiusIdx row radius_km).isEmpty
  · rw [if_pos h]
    rw [List.isEmpty_iff] at h
    rw [h]
    rfl
  · rw [if_neg h]
    simp [List.length_map]

/-- C5, confirmed: with the grid and the fire point table held fixed, the
`fire_count` computed by `process_node_features_fire` for any node is
monotone in `radius_km`, in both the dense and the accelerated distance
modes. -/
theorem claim_C5 (node_batch : ℕ × ℕ × List String)
    (node_coords_array fire_coords : List (ℝ × ℝ)) (firms_df : List FireRow)
    (r1 r2 : ℝ) (hr : r1 ≤ r2) (i : ℕ) (id1 id2 : String) (f1 f2 : FireFeatures)
    (h1 : (processNodeFeaturesFire node_batch node_coords_array fire_coords
      firms_df r1)[i]? = some (id1, f1))
    (h2 : (processNodeFeaturesFire node_batch node_coords_array fire_coords
      firms_df r2)[i]? = some (id2, f2)) :
    f1.fire_count ≤ f2.fire_count := by
  simp only [processNodeFeaturesFire] at h1 h2
  rw [List.getElem?_map] at h1 h2
  rcases he : (node_batch.2.2.enum)[i]? with _ | p
  · rw [he] at h1
    exact Option.noConfusion h1
  · rw [he] at h1 h2
    replace h1 := Option.some.inj h1
    replace h2 := Option.some.inj h2
    have hf1 := (congrArg Prod.snd h1).symm
    have hf2 := (congrArg Prod.snd h2).symm
    simp only at hf1 hf2
    rw [hf1, hf2, fireFeaturesForRow_fire_count, fireFeaturesForRow_fire_count]
    rw [inRadiusIdx, inRadiusIdx]
    have hlen : ((calculateHaversineDistances
        ((node_coords_array.drop node_batch.1).take (node_batch.2.1 - node_batch.1))
        fire_coords (some r1)).getD p.1 []).length =
        ((calculateHaversineDistances
        ((node_coords_array.drop node_batch.1).take (node_batch.2.1 - node_batch.1))
        fire_coords (some r2)).getD p.1 []).length := by
      rw [calculateHaversineDistances_row_length, calculateHaversineDistances_row_length]
    rw [hlen]
    refine (List.monotone_filter_right _ ?_).length_le
    intro j hj
    rw [decide_eq_true_eq] at hj ⊢
    exact entry_radius_mono _ fire_coords r1 r2 hr p.1 j hj

/-! ## Theorems: aggregation of all-missing values (C3) -/

lemma pdMean_all_none (xs : List (Option ℝ)) (h : ∀ v ∈ xs, v = none) :
    pdMean xs = none := by
  rw [pdMean]
  rw [if_pos]
  rw [List.isEmpty_iff, List.filterMap_eq_nil_iff]
  intro a ha
  exact h a ha

/-- Concrete evaluation: a single node colocated with a single fire point;
the 1×1 dense distance matrix row is `[0]`. -/
lemma fire_row_eval (r : ℝ) :
    (calculateHaversineDistances
        (([((40 : ℝ), (-115 : ℝ))].drop 0).take (1 - 0))
        [((40 : ℝ), (-115 : ℝ))] (some r)).getD 0 [] = [((0 : ℝ) : WithTop ℝ)] := by
  have hbatch : (([((40 : ℝ), (-115 : ℝ))].drop 0).take (1 - 0)) =
      [((40 : ℝ), (-115 : ℝ))] := by simp
  rw [hbatch, calculateHaversineDistances, if_neg (by simp)]
  simp [denseHaversineMatrix, sklearnHaversineRad_self]

lemma sel_zero_eval (r : ℝ) (hr : 0 ≤ r) :
    inRadiusIdx [((0 : ℝ) : WithTop ℝ)] r = [0] := by
  rw [inRadiusIdx]
  rw [show ([((0 : ℝ) : WithTop ℝ)] : List (WithTop ℝ)).length = 1 from rfl]
  rw [show List.range 1 = [0] from rfl]
  rw [List.filter_cons]
  rw [if_pos (by
    rw [decide_eq_true_eq]
    rw [show ([((0 : ℝ) : WithTop ℝ)] : List (WithTop ℝ)).getD 0 ⊤ =
      ((0 : ℝ) : WithTop ℝ) from rfl]
    exact WithTop.coe_le_coe.mpr hr)]
  rfl

lemma fire_sel_eval (r : ℝ) (hr : 0 ≤ r) :
    inRadiusIdx ((calculateHaversineDistances
        (([((40 : ℝ), (-115 : ℝ))].drop 0).take (1 - 0))
        [((40 : ℝ), (-115 : ℝ))] (some r)).getD 0 []) r = [0] := by
  rw [fire_row_eval]
  exact sel_zero_eval r hr

/-- Concrete evaluation of `process_node_features_fire` on one node colocated
with one fire point whose `bright_ti4` and `frp` are both missing. -/
lemma fire_all_null_eval (r : ℝ) (hr : 0 ≤ r) :
    processNodeFeaturesFire (0, 1, ["n"]) [((40 : ℝ), (-115 : ℝ))]
      [((40 : ℝ), (-115 : ℝ))] [⟨40, -115, none, none⟩] r =
      [("n", ⟨1, none, none, some 0⟩)] := by
  have hfeat : fireFeaturesForRow [((0 : ℝ) : WithTop ℝ)] [⟨40, -115, none, none⟩] r =
      ⟨1, none, none, some 0⟩ := by
    rw [fireFeaturesForRow, sel_zero_eval r hr, if_neg (by simp)]
    simp [pdMean]
  simp only [processNodeFeaturesFire]
  rw [show List.enum ["n"] = [(0, "n")] from rfl]
  simp only [List.map_cons, List.map_nil]
  rw [fire_row_eval r, hfeat]

/-- C3, counterexample to the claim as stated: one cell, one in-radius fire
point whose `bright_ti4` and `frp` are both missing.  The selected set is
nonempty (`fire_count = 1`) and all-missing in both fields, yet the mean
features are the missing-value marker `NaN` (`none`), not `0`; only `max_frp`
is substituted with `0`. -/
theorem claim_C3_counterexample :
    (processNodeFeaturesFire (0, 1, ["n"]) [((40 : ℝ), (-115 : ℝ))]
        [((40 : ℝ), (-115 : ℝ))] [⟨40, -115, none, none⟩] 10).map
        (fun p => (p.2.fire_count, p.2.avg_bright_ti4, p.2.avg_frp, p.2.max_frp)) =
      [(1, none, none, some 0)] := by
  rw [fire_all_null_eval 10 (by norm_num)]
  rfl

/-- C3, amended: for every node whose in-radius selection is nonempty with all
`bright_ti4` and all `frp` values missing, `process_node_features_fire`
substitutes `0` only for `max_frp`; the mean features `avg_bright_ti4` and
`avg_frp` are the missing-value marker `NaN` (`none`), and `fire_count` is the
selection size. -/
theorem claim_C3 (node_batch : ℕ × ℕ × List String)
    (node_coords_array fire_coords : List (ℝ × ℝ)) (firms_df : List FireRow)
    (r : ℝ) (i : ℕ) (id : String) (f : FireFeatures)
    (h : (processNodeFeaturesFire node_batch node_coords_array fire_coords
      firms_df r)[i]? = some (id, f))
    (hne : inRadiusIdx ((calculateHaversineDistances
        ((node_coords_array.drop node_batch.1).take (node_batch.2.1 - node_batch.1))
        fire_coords (some r)).getD i []) r ≠ [])
    (hbright : ∀ j ∈ inRadiusIdx ((calculateHaversineDistances
        ((node_coords_array.drop node_batch.1).take (node_batch.2.1 - node_batch.1))
        fire_coords (some r)).getD i []) r, (firms_df.getD j default).bright_ti4 = none)
    (hfrp : ∀ j ∈ inRadiusIdx ((calculateHaversineDistances
        ((node_coords_array.drop node_batch.1).take (node_batch.2.1 - node_batch.1))
        fire_coords (some r)).getD i []) r, (firms_df.getD j default).frp = none) :
    f.avg_bright_ti4 = none ∧ f.avg_frp = none ∧ f.max_frp = some 0 ∧
    f.fire_count = (inRadiusIdx ((calculateHaversineDistances
        ((node_coords_array.drop node_batch.1).take (node_batch.2.1 - node_batch.1))
        fire_coords (some r)).getD i []) r).length := by
  simp only [processNodeFeaturesFire] at h
  rw [List.getElem?_map, List.getElem?_enum] at h
  rcases hx : node_batch.2.2[i]? with _ | s
  · rw [hx] at h
    exact Option.noConfusion h
  · rw [hx] at h
    replace h := Option.some.inj h
    have hf := (congrArg Prod.snd h).symm
    simp only at hf
    have hfields : f = FireFeatures.mk ((inRadiusIdx ((calculateHaversineDistances
        ((node_coords_array.drop node_batch.1).take (node_batch.2.1 - node_batch.1))
        fire_coords (some r)).getD i []) r).length) none none (some 0) := by
      rw [hf, fireFeaturesForRow, if_neg (by simpa using hne)]
      simp only [FireFeatures.mk.injEq]
      refine ⟨by rw [List.length_map], ?_, ?_, ?_⟩
      · apply pdMean_all_none
        intro v hv
        simp only [List.map_map, List.mem_map] at hv
        obtain ⟨j, hj, hvj⟩ := hv
        rw [← hvj]
        exact hbright j hj
      · apply pdMean_all_none
        intro v hv
        simp only [List.map_map, List.mem_map] at hv
        obtain ⟨j, hj, hvj⟩ := hv
        rw [← hvj]
        exact hfrp j hj
      · rw [if_pos]
        rw [List.all_eq_true]
        intro v hv
        simp only [List.map_map, List.mem_map] at hv
        obtain ⟨j, hj, hvj⟩ := hv
        rw [← hvj]
        simp only [Function.comp_apply, Option.isNone_iff_eq_none]
        exact hfrp j hj
    rw [hfields]
    exact ⟨rfl, rfl, rfl, rfl⟩

/-- Witness for `claim_C3` at the concrete input of the counterexample. -/
theorem claim_C3_witness :
    (FireFeatures.mk 1 none none (some 0)).avg_bright_ti4 = none ∧
    (FireFeatures.mk 1 none none (some 0)).avg_frp = none ∧
    (FireFeatures.mk 1 none none (some 0)).max_frp = some 0 ∧
    (FireFeatures.mk 1 none none (some 0)).fire_count =
      (inRadiusIdx ((calculateHaversineDistances
        (([((40 : ℝ), (-115 : ℝ))].drop (0, 1, ["n"]).1).take
          ((0, 1, ["n"]).2.1 - (0, 1, ["n"]).1))
        [((40 : ℝ), (-115 : ℝ))] (some 10)).getD 0 []) 10).length :=
  claim_C3 (0, 1, ["n"]) [((40 : ℝ), (-115 : ℝ))] [((40 : ℝ), (-115 : ℝ))]
    [⟨40, -115, none, none⟩] 10 0 "n" (FireFeatures.mk 1 none none (some 0))
    (by rw [fire_all_null_eval 10 (by norm_num)]; rfl)
    (by rw [fire_sel_eval 10 (by norm_num)]; simp)
    (by rw [fire_sel_eval 10 (by norm_num)]; intro j hj; simp at hj; subst hj; rfl)
    (by rw [fire_sel_eval 10 (by norm_num)]; intro j hj; simp at hj; subst hj; rfl)

/-- Witness for `claim_C5` at the concrete input of `fire_all_null_eval`,
radii `1 ≤ 2`. -/
theorem claim_C5_witness :
    (FireFeatures.mk 1 none none (some 0)).fire_count ≤
      (FireFeatures.mk 1 none none (some 0)).fire_count :=
  claim_C5 (0, 1, ["n"]) [((40 : ℝ), (-115 : ℝ))] [((40 : ℝ), (-115 : ℝ))]
    [⟨40, -115, none, none⟩] 1 2 (by norm_num) 0 "n" "n"
    (FireFeatures.mk 1 none none (some 0)) (FireFeatures.mk 1 none none (some 0))
    (by rw [fire_all_null_eval 1 (by norm_num)]; rfl)
    (by rw [fire_all_null_eval 2 (by norm_num)]; rfl)

/-! ## Theorems: weather aggregation does not disturb fire features (C7) -/

lemma append_ne_of_data_ne {s k : String} (p : String)
    (h : ∀ t : List Char, p.data ++ t ≠ k.data) : p ++ s ≠ k := by
  intro he
  have hd := congrArg String.data he
  rw [String.data_append] at hd
  exact h s.data hd

lemma current_append_ne (s : String) :
    "current_" ++ s ≠ "fire_count" ∧ "current_" ++ s ≠ "avg_bright_ti4" ∧
    "current_" ++ s ≠ "avg_frp" ∧ "current_" ++ s ≠ "max_frp" := by
  refine ⟨append_ne_of_data_ne _ ?_, append_ne_of_data_ne _ ?_,
    append_ne_of_data_ne _ ?_, append_ne_of_data_ne _ ?_⟩ <;>
    · intro t h
      injection h with h1 _
      exact absurd h1 (by decide)

lemma forecast_append_ne (s : String) :
    "forecast_" ++ s ≠ "fire_count" ∧ "forecast_" ++ s ≠ "avg_bright_ti4" ∧
    "forecast_" ++ s ≠ "avg_frp" ∧ "forecast_" ++ s ≠ "max_frp" := by
  refine ⟨append_ne_of_data_ne _ ?_, append_ne_of_data_ne _ ?_,
    append_ne_of_data_ne _ ?_, append_ne_of_data_ne _ ?_⟩
  · intro t h
    injection h with h1 h2
    injection h2 with h3 _
    exact absurd h3 (by decide)
  · intro t h
    injection h with h1 _
    exact absurd h1 (by decide)
  · intro t h
    injection h with h1 _
    exact absurd h1 (by decide)
  · intro t h
    injection h with h1 _
    exact absurd h1 (by decide)

lemma lookup_map_prefixed_none {γ : Type} (cols : List (String × γ))
    (g : String × γ → Option ℝ) (pfx k : String) (hk : ∀ s, pfx ++ s ≠ k) :
    (cols.map (fun c => (pfx ++ c.1, g c))).lookup k = none := by
  induction cols with
  | nil => rfl
  | cons c t ih =>
    rw [List.map_cons, List.lookup_cons]
    rw [show (k == pfx ++ c.1) = false from
      beq_eq_false_iff_ne.mpr (fun he => hk c.1 he.symm)]
    exact ih

/-- Every key the weather aggregation can produce carries the source prefix,
so looking up a differently-prefixed key yields nothing. -/
lemma weatherFeaturesForRow_lookup_none (row : List (WithTop ℝ))
    (cols : List (String × List (Option ℝ))) (r : ℝ) (pfx k : String)
    (hk : ∀ s, pfx ++ s ≠ k) :
    (weatherFeaturesForRow row cols r pfx).lookup k = none := by
  rw [weatherFeaturesForRow]
  by_cases he : (inRadiusIdx row r).isEmpty
  · rw [if_pos he]
    rfl
  · rw [if_neg he]
    exact lookup_map_prefixed_none cols _ pfx k hk

lemma lookup_filter_none {V : Type} (u : List (String × V))
    (G : String × V → Bool) (k : String) (hu : u.lookup k = none) :
    (u.filter G).lookup k = none := by
  induction u with
  | nil => rfl
  | cons a t ih =>
    rcases a with ⟨ak, av⟩
    rw [List.lookup_cons] at hu
    rcases hbe : (k == ak) with _ | _
    · rw [hbe] at hu
      rw [List.filter_cons]
      split_ifs
      · rw [List.lookup_cons, hbe]
        exact ih hu
      · exact ih hu
    · rw [hbe] at hu
      exact Option.noConfusion hu

lemma lookup_append_right_none {V : Type} (l1 l2 : List (String × V)) (k : String)
    (h2 : l2.lookup k = none) : (l1 ++ l2).lookup k = l1.lookup k := by
  induction l1 with
  | nil =>
    rw [List.nil_append, h2]
    rfl
  | cons a t ih =>
    rcases a with ⟨ak, av⟩
    rw [List.cons_append, List.lookup_cons, List.lookup_cons]
    rcases hbe : (k == ak) with _ | _
    · exact ih
    · rfl

/-- Python `dict.update` with an update table that does not mention key `k`
leaves the lookup of `k` unchanged. -/
lemma lookup_pyDictUpdate {V : Type} (d u : List (String × V)) (k : String)
    (hu : u.lookup k = none) :
    (pyDictUpdate d u).lookup k = d.lookup k := by
  rw [pyDictUpdate, lookup_append_right_none _ _ k (lookup_filter_none u _ k hu)]
  induction d with
  | nil => rfl
  | cons a t ih =>
    rcases a with ⟨ak, av⟩
    rw [List.map_cons]
    rcases hua : u.lookup ak with _ | v
    · simp only [hua]
      rw [List.lookup_cons, List.lookup_cons]
      rcases hbe : (k == ak) with _ | _
      · exact ih
      · rfl
    · simp only [hua]
      rw [List.lookup_cons, List.lookup_cons]
      rcases hbe : (k == ak) with _ | _
      · exact ih
      · exfalso
        have hkak : k = ak := eq_of_beq hbe
        rw [hkak, hua] at hu
        exact Option.noConfusion hu

/-- C7, confirmed: weather aggregation never overwrites or clears the fire
features.  Every per-node weather dictionary only holds `current_`/`forecast_`
prefixed keys, so merging it into a node's feature dictionary leaves the four
fire keys untouched; and a node with no weather point within the radius gets
an empty weather dictionary (no weather keys at all). -/
theorem claim_C7 (node_batch : ℕ × ℕ × List String)
    (node_coords_array weather_coords : List (ℝ × ℝ))
    (weather_df : List (String × List (Option ℝ))) (r : ℝ) (is_forecast : Bool)
    (i : ℕ) (id : String) (w : List (String × Option ℝ))
    (h : (processNodeFeaturesWeather node_batch node_coords_array weather_coords
      weather_df r is_forecast)[i]? = some (id, w)) :
    (∀ fireDict : List (String × Option ℝ),
      ∀ k ∈ ["fire_count", "avg_bright_ti4", "avg_frp", "max_frp"],
        (pyDictUpdate fireDict w).lookup k = fireDict.lookup k) ∧
    (inRadiusIdx ((calculateHaversineDistances
        ((node_coords_array.drop node_batch.1).take (node_batch.2.1 - node_batch.1))
        weather_coords (some r)).getD i []) r = [] → w = []) := by
  simp only [processNodeFeaturesWeather] at h
  rw [List.getElem?_map, List.getElem?_enum] at h
  rcases hx : node_batch.2.2[i]? with _ | s
  · rw [hx] at h
    exact Option.noConfusion h
  · rw [hx] at h
    replace h := Option.some.inj h
    have hw := (congrArg Prod.snd h).symm
    simp only at hw
    have hk : ∀ k ∈ ["fire_count", "avg_bright_ti4", "avg_frp", "max_frp"],
        w.lookup k = none := by
      intro k hkmem
      rw [hw]
      apply weatherFeaturesForRow_lookup_none
      intro t
      rcases is_forecast with _ | _
      · simp only [Bool.false_eq_true, if_false]
        have hne := current_append_ne t
        fin_cases hkmem
        · exact hne.1
        · exact hne.2.1
        · exact hne.2.2.1
        · exact hne.2.2.2
      · simp only [if_true]
        have hne := forecast_append_ne t
        fin_cases hkmem
        · exact hne.1
        · exact hne.2.1
        · exact hne.2.2.1
        · exact hne.2.2.2
    refine ⟨fun fireDict k hkmem => lookup_pyDictUpdate fireDict w k (hk k hkmem), ?_⟩
    intro hempty
    rw [hw, weatherFeaturesForRow, if_pos (by rw [List.isEmpty_iff]; exact hempty)]

/-- Concrete evaluation of `process_node_features_weather` on one node
colocated with one weather point carrying a single numeric column. -/
lemma weather_eval :
    processNodeFeaturesWeather (0, 1, ["n"]) [((40 : ℝ), (-115 : ℝ))]
      [((40 : ℝ), (-115 : ℝ))] [("temp", [some (25 : ℝ)])] 10 false =
      [("n", [("current_temp", some (25 : ℝ))])] := by
  have hw : weatherFeaturesForRow [((0 : ℝ) : WithTop ℝ)] [("temp", [some (25 : ℝ)])]
      10 "current_" = [("current_temp", some (25 : ℝ))] := by
    rw [weatherFeaturesForRow, sel_zero_eval 10 (by norm_num)]
    rw [if_neg (by simp)]
    rw [if_neg (by simp)]
    simp only [List.map_cons, List.map_nil]
    rw [show ([some (25 : ℝ)].getD 0 none) = some (25 : ℝ) from rfl]
    rw [show pdMean [some (25 : ℝ)] = some (25 : ℝ) from by
      simp [pdMean, List.filterMap_cons]]
    rfl
  simp only [processNodeFeaturesWeather]
  rw [show List.enum ["n"] = [(0, "n")] from rfl]
  simp only [List.map_cons, List.map_nil, Bool.false_eq_true, if_false]
  rw [fire_row_eval 10,
    show ([("temp", [some (25 : ℝ)])].filter
      (fun c => !(c.1 == "latitude" || c.1 == "longitude"))) =
      [("temp", [some (25 : ℝ)])] from rfl, hw]

/-- Witness for `claim_C7` at the concrete input of `weather_eval`. -/
theorem claim_C7_witness :
    (∀ fireDict : List (String × Option ℝ),
      ∀ k ∈ ["fire_count", "avg_bright_ti4", "avg_frp", "max_frp"],
        (pyDictUpdate fireDict [("current_temp", some (25 : ℝ))]).lookup k =
          fireDict.lookup k) ∧
    (inRadiusIdx ((calculateHaversineDistances
        (([((40 : ℝ), (-115 : ℝ))].drop (0, 1, ["n"]).1).take
          ((0, 1, ["n"]).2.1 - (0, 1, ["n"]).1))
        [((40 : ℝ), (-115 : ℝ))] (some 10)).getD 0 []) 10 = [] →
      [("current_temp", some (25 : ℝ))] = []) :=
  claim_C7 (0, 1, ["n"]) [((40 : ℝ), (-115 : ℝ))] [((40 : ℝ), (-115 : ℝ))]
    [("temp", [some (25 : ℝ)])] 10 false 0 "n" [("current_temp", some (25 : ℝ))]
    (by rw [weather_eval]; rfl)

/-! ## The neighbor graph at the index level (C2, C6, C10)

`idxEdgesFor`/`idxEdges` replay the edge construction of `create_grid_edges`
over `(band_index, lon_index)` pairs; `createGridEdges` is their image under
the cell id map.  All combinatorial facts are proved at the index level and
transported. -/

/-- The edges of `edgesFor` with each cell named by its index pair. -/
def idxEdgesFor {α : Type} [LinearOrderedField α] (lonCenters : List (List α))
    (nB i j : ℕ) : List ((ℕ × ℕ) × (ℕ × ℕ)) :=
  (if j + 1 < (lonCenters.getD i []).length then [((i, j), (i, j + 1))] else []) ++
  (if i + 1 < nB then
    let k := argminAbs (lonCenters.getD (i + 1) []) ((lonCenters.getD i []).getD j 0)
    [((i, j), (i + 1, k))] ++
    (if k + 1 < (lonCenters.getD (i + 1) []).length then [((i, j), (i + 1, k + 1))] else []) ++
    (if 0 < k then [((i, j), (i + 1, k - 1))] else [])
  else [])

/-- The full edge list of the `.ok` branch, at the index level. -/
def idxEdges {α : Type} [LinearOrderedField α] (lonCenters : List (List α))
    (nB : ℕ) : List ((ℕ × ℕ) × (ℕ × ℕ)) :=
  (List.range nB).flatMap (fun i =>
    (List.range (lonCenters.getD i []).length).flatMap (fun j =>
      idxEdgesFor lonCenters nB i j))

/-- The ids of all grid cells, enumerated band by band — the same ids
`create_grid_cells` emits and `create_grid_edges` recomputes. -/
def gridCellIds {α ι : Type} [LinearOrderedField α] (fmt : α → α → ι)
    (latBins : List α) (lonBinsByLat : List (List α)) : List ι :=
  (List.range (latBins.length - 1)).flatMap (fun i =>
    (List.range ((lonCentersOf latBins lonBinsByLat).getD i []).length).map (fun j =>
      cellIdOf fmt latBins (lonCentersOf latBins lonBinsByLat) i j))

/-- Strict lexicographic order on index pairs; every emitted edge points from
the lexicographically smaller cell to the larger one. -/
def lexLt (p q : ℕ × ℕ) : Prop := p.1 < q.1 ∨ (p.1 = q.1 ∧ p.2 < q.2)

lemma lexLt_asymm {p q : ℕ × ℕ} (h1 : lexLt p q) (h2 : lexLt q p) : False := by
  rcases h1 with h | ⟨h, h'⟩ <;> rcases h2 with g | ⟨g, g'⟩ <;> omega

lemma lexLt_ne {p q : ℕ × ℕ} (h : lexLt p q) : p ≠ q := by
  rintro rfl
  exact lexLt_asymm h h

lemma argminAbsGo_lt {α : Type} [LinearOrderedField α] (x : α) :
    ∀ (l : List α) (i : ℕ) (best : α × ℕ) (bound : ℕ),
      best.2 < bound → i + l.length ≤ bound → argminAbsGo x l i best < bound := by
  intro l
  induction l with
  | nil =>
    intro i best bound hb _
    exact hb
  | cons a rest ih =>
    intro i best bound hb hi
    rw [argminAbsGo]
    split_ifs
    · exact ih (i + 1) (|a - x|, i) bound (by simp at hi ⊢; omega)
        (by simp at hi ⊢; omega)
    · exact ih (i + 1) best bound hb (by simp at hi ⊢; omega)

lemma argminAbs_lt_length {α : Type} [LinearOrderedField α] (xs : List α) (x : α)
    (h : xs ≠ []) : argminAbs xs x < xs.length := by
  rcases xs with _ | ⟨a, rest⟩
  · exact absurd rfl h
  · rw [argminAbs]
    exact argminAbsGo_lt x rest 1 (|a - x|, 0) (rest.length + 1)
      (Nat.succ_pos rest.length) (by omega)

/-- `edgesFor` is the image of its index-level version under the id map. -/
lemma edgesFor_eq_map {α ι : Type} [LinearOrderedField α] (fmt : α → α → ι)
    (latBins : List α) (lonCenters : List (List α)) (nB i j : ℕ) :
    edgesFor fmt latBins lonCenters nB i j =
      (idxEdgesFor lonCenters nB i j).map (fun e =>
        (cellIdOf fmt latBins lonCenters e.1.1 e.1.2,
         cellIdOf fmt latBins lonCenters e.2.1 e.2.2)) := by
  simp only [edgesFor, idxEdgesFor, List.map_append]
  split_ifs <;> rfl

/-- The `.ok` edge list of `createGridEdges` is the image of `idxEdges`. -/
lemma createGridEdges_ok_eq {α ι : Type} [LinearOrderedField α] (fmt : α → α → ι)
    (latBins : List α) (lonBinsByLat : List (List α)) (E : List (ι × ι))
    (hE : createGridEdges fmt latBins lonBinsByLat = .ok E) :
    E = (idxEdges (lonCentersOf latBins lonBinsByLat) (latBins.length - 1)).map
        (fun e => (cellIdOf fmt latBins (lonCentersOf latBins lonBinsByLat) e.1.1 e.1.2,
          cellIdOf fmt latBins (lonCentersOf latBins lonBinsByLat) e.2.1 e.2.2)) ∧
      ∀ i, i + 1 < latBins.length - 1 →
        (lonCentersOf latBins lonBinsByLat).getD i [] ≠ [] →
        (lonCentersOf latBins lonBinsByLat).getD (i + 1) [] ≠ [] := by
  rw [createGridEdges] at hE
  split_ifs at hE with hcr
  replace hE := (Except.ok.inj hE).symm
  constructor
  · rw [hE, idxEdges, List.map_flatMap]
    refine congrArg _ (funext fun i => ?_)
    rw [List.map_flatMap]
    refine congrArg _ (funext fun j => ?_)
    exact edgesFor_eq_map fmt latBins _ _ i j
  · intro i hi hne
    by_contra hemp
    apply hcr
    rw [List.any_eq_true]
    refine ⟨i, List.mem_range.mpr (by omega), ?_⟩
    rw [Bool.and_eq_true, Bool.and_eq_true]
    refine ⟨⟨decide_eq_true hi, ?_⟩, ?_⟩
    · rw [Bool.not_eq_true']
      exact List.isEmpty_eq_false.mpr hne
    · rw [List.isEmpty_eq_true]
      exact hemp

lemma flatMap_congr_mem {β γ : Type} (l : List β) (f g : β → List γ)
    (h : ∀ i ∈ l, f i = g i) : l.flatMap f = l.flatMap g := by
  rw [List.flatMap_def, List.flatMap_def, List.map_congr_left h]

lemma map_getD_range {β γ : Type} (l : List β) (f : β → γ) (d : β) :
    (List.range l.length).map (fun j => f (l.getD j d)) = l.map f := by
  induction l with
  | nil => rfl
  | cons a t ih =>
    rw [List.length_cons, List.range_succ_eq_map, List.map_cons, List.map_map,
      List.map_cons]
    refine congrArg _ ?_
    rw [← ih]
    rfl

/-- Characterization of the edges a single loop iteration emits: the source is
the iteration's cell, the target its east neighbor or one of up to three cells
around the nearest-longitude cell of the next band. -/
lemma mem_idxEdgesFor {α : Type} [LinearOrderedField α] {lonCenters : List (List α)}
    {nB i j : ℕ} {e : (ℕ × ℕ) × (ℕ × ℕ)} (h : e ∈ idxEdgesFor lonCenters nB i j) :
    e.1 = (i, j) ∧
    ((e.2 = (i, j + 1) ∧ j + 1 < (lonCenters.getD i []).length) ∨
     (i + 1 < nB ∧
      (e.2 = (i + 1, argminAbs (lonCenters.getD (i + 1) [])
          ((lonCenters.getD i []).getD j 0)) ∨
       (e.2 = (i + 1, argminAbs (lonCenters.getD (i + 1) [])
          ((lonCenters.getD i []).getD j 0) + 1) ∧
        argminAbs (lonCenters.getD (i + 1) []) ((lonCenters.getD i []).getD j 0) + 1 <
          (lonCenters.getD (i + 1) []).length) ∨
       (e.2 = (i + 1, argminAbs (lonCenters.getD (i + 1) [])
          ((lonCenters.getD i []).getD j 0) - 1) ∧
        0 < argminAbs (lonCenters.getD (i + 1) []) ((lonCenters.getD i []).getD j 0))))) := by
  simp only [idxEdgesFor, List.mem_append, List.mem_ite_nil_right, List.mem_cons,
    List.not_mem_nil, or_false, List.mem_singleton] at h
  rcases h with ⟨hlt, rfl⟩ | ⟨hnb, h2⟩
  · exact ⟨rfl, Or.inl ⟨rfl, hlt⟩⟩
  · rcases h2 with (rfl | ⟨hlt2, rfl⟩) | ⟨hpos, rfl⟩
    · exact ⟨rfl, Or.inr ⟨hnb, Or.inl rfl⟩⟩
    · exact ⟨rfl, Or.inr ⟨hnb, Or.inr (Or.inl ⟨rfl, hlt2⟩)⟩⟩
    · exact ⟨rfl, Or.inr ⟨hnb, Or.inr (Or.inr ⟨rfl, hpos⟩)⟩⟩

lemma idxEdgesFor_nodup {α : Type} [LinearOrderedField α] (lonCenters : List (List α))
    (nB i j : ℕ) : (idxEdgesFor lonCenters nB i j).Nodup := by
  simp only [idxEdgesFor]
  split_ifs <;> simp [List.nodup_cons, Prod.ext_iff, -List.getD_eq_getElem?_getD] <;> omega

lemma mem_idxEdges {α : Type} [LinearOrderedField α] {lonCenters : List (List α)}
    {nB : ℕ} {e : (ℕ × ℕ) × (ℕ × ℕ)} (h : e ∈ idxEdges lonCenters nB) :
    ∃ i j, i < nB ∧ j < (lonCenters.getD i []).length ∧
      e ∈ idxEdgesFor lonCenters nB i j := by
  simp only [idxEdges, List.mem_flatMap, List.mem_range] at h
  obtain ⟨i, hi, j, hj, he⟩ := h
  exact ⟨i, j, hi, hj, he⟩

/-- Every index edge points lexicographically forward (in particular there are
no self-loops), and both endpoints are valid cells of the grid, provided no
band with a successor is nonempty while the successor is empty (the no-crash
condition of `create_grid_edges`). -/
lemma idxEdges_valid {α : Type} [LinearOrderedField α] {lonCenters : List (List α)}
    {nB : ℕ}
    (hcrash : ∀ i, i + 1 < nB → lonCenters.getD i [] ≠ [] →
      lonCenters.getD (i + 1) [] ≠ [])
    {e : (ℕ × ℕ) × (ℕ × ℕ)} (h : e ∈ idxEdges lonCenters nB) :
    (e.1.1 < nB ∧ e.1.2 < (lonCenters.getD e.1.1 []).length) ∧
    (e.2.1 < nB ∧ e.2.2 < (lonCenters.getD e.2.1 []).length) ∧
    lexLt e.1 e.2 := by
  obtain ⟨i, j, hi, hj, he⟩ := mem_idxEdges h
  obtain ⟨h1, h2⟩ := mem_idxEdgesFor he
  have hne : lonCenters.getD i [] ≠ [] := by
    intro hcon
    rw [hcon] at hj
    exact Nat.not_lt_zero j hj
  rcases h2 with ⟨he2, hlt⟩ | ⟨hnb, hcase⟩
  · refine ⟨by rw [h1]; exact ⟨hi, hj⟩, by rw [he2]; exact ⟨hi, hlt⟩, ?_⟩
    rw [h1, he2, lexLt]
    right
    exact ⟨rfl, by omega⟩
  · have hne2 : lonCenters.getD (i + 1) [] ≠ [] := hcrash i hnb hne
    have hk : argminAbs (lonCenters.getD (i + 1) []) ((lonCenters.getD i []).getD j 0) <
        (lonCenters.getD (i + 1) []).length := argminAbs_lt_length _ _ hne2
    rcases hcase with he2 | ⟨he2, hlt2⟩ | ⟨he2, hpos⟩
    · refine ⟨by rw [h1]; exact ⟨hi, hj⟩, ?_, ?_⟩
      · rw [he2]
        exact ⟨hnb, hk⟩
      · rw [h1, he2, lexLt]
        left
        exact Nat.lt_succ_self i
    · refine ⟨by rw [h1]; exact ⟨hi, hj⟩, ?_, ?_⟩
      · rw [he2]
        exact ⟨hnb, hlt2⟩
      · rw [h1, he2, lexLt]
        left
        exact Nat.lt_succ_self i
    · refine ⟨by rw [h1]; exact ⟨hi, hj⟩, ?_, ?_⟩
      · rw [he2]
        refine ⟨hnb, ?_⟩
        show argminAbs (lonCenters.getD (i + 1) []) ((lonCenters.getD i []).getD j 0) - 1 <
          (lonCenters.getD (i + 1) []).length
        omega
      · rw [h1, he2, lexLt]
        left
        exact Nat.lt_succ_self i

lemma idxEdges_nodup {α : Type} [LinearOrderedField α] (lonCenters : List (List α))
    (nB : ℕ) : (idxEdges lonCenters nB).Nodup := by
  rw [idxEdges, List.nodup_flatMap]
  constructor
  · intro i _
    rw [List.nodup_flatMap]
    refine ⟨fun j _ => idxEdgesFor_nodup lonCenters nB i j, ?_⟩
    refine (List.pairwise_lt_range _).imp ?_
    intro j j' hjj e he he'
    have g1 := (mem_idxEdgesFor he).1
    have g2 := (mem_idxEdgesFor he').1
    rw [g1] at g2
    have : j = j' := congrArg Prod.snd g2
    omega
  · refine (List.pairwise_lt_range _).imp ?_
    intro i i' hii e he he'
    simp only [List.mem_flatMap, List.mem_range] at he he'
    obtain ⟨j, _, hej⟩ := he
    obtain ⟨j', _, hej'⟩ := he'
    have g1 := (mem_idxEdgesFor hej).1
    have g2 := (mem_idxEdgesFor hej').1
    rw [g1] at g2
    have : i = i' := congrArg Prod.fst g2
    omega

/-- The `(band, lon)` index pairs of all grid cells. -/
def cellIdxList {α : Type} [LinearOrderedField α] (lonCenters : List (List α))
    (nB : ℕ) : List (ℕ × ℕ) :=
  (List.range nB).flatMap (fun i =>
    (List.range (lonCenters.getD i []).length).map (fun j => (i, j)))

lemma mem_cellIdxList {α : Type} [LinearOrderedField α] {lonCenters : List (List α)}
    {nB : ℕ} {p : ℕ × ℕ} :
    p ∈ cellIdxList lonCenters nB ↔
      p.1 < nB ∧ p.2 < (lonCenters.getD p.1 []).length := by
  rw [cellIdxList]
  simp only [List.mem_flatMap, List.mem_range, List.mem_map]
  constructor
  · rintro ⟨i, hi, j, hj, rfl⟩
    exact ⟨hi, hj⟩
  · rintro ⟨h1, h2⟩
    exact ⟨p.1, h1, p.2, h2, rfl⟩

lemma gridCellIds_eq {α ι : Type} [LinearOrderedField α] (fmt : α → α → ι)
    (latBins : List α) (lonBinsByLat : List (List α)) :
    gridCellIds fmt latBins lonBinsByLat =
      (cellIdxList (lonCentersOf latBins lonBinsByLat) (latBins.length - 1)).map
        (fun p => cellIdOf fmt latBins (lonCentersOf latBins lonBinsByLat) p.1 p.2) := by
  rw [gridCellIds, cellIdxList, List.map_flatMap]
  refine congrArg _ (funext fun i => ?_)
  rw [List.map_map]
  rfl

/-- Structure of a successful `create_grid_cells` run: one longitude bin list
per band, and the emitted cell ids are exactly the ids `create_grid_edges`
recomputes, band by band. -/
lemma createGridCells_ok {ι : Type} (fmt : ℝ → ℝ → ι) (mn mx a b gs : ℝ)
    (lb : List ℝ) (lbbl : List (List ℝ)) (cells : List (ℝ × ℝ × ι))
    (h : createGridCells fmt mn mx a b gs = .ok (lb, lbbl, cells)) :
    lbbl.length = lb.length - 1 ∧
    cells.map (fun c => c.2.2) = gridCellIds fmt lb lbbl := by
  simp only [createGridCells] at h
  split_ifs at h
  replace h := Except.ok.inj h
  injection h with ha hbc
  injection hbc with hb hc2
  subst ha hb hc2
  set lat_bins := arangeList mn (mx + gs / 111.0) (gs / 111.0) with hlat
  set nB := lat_bins.length - 1 with hnB
  set lonBinsFor := fun i =>
    arangeList a (b + lonStep gs (latCenter lat_bins i)) (lonStep gs (latCenter lat_bins i))
    with hlbf
  constructor
  · rw [List.length_map, List.length_range]
  · rw [gridCellIds_eq, cellIdxList, List.map_flatMap, List.map_flatMap]
    refine flatMap_congr_mem _ _ _ ?_
    intro i hi
    rw [List.mem_range] at hi
    have hlonC : (lonCentersOf lat_bins ((List.range nB).map lonBinsFor)).getD i [] =
        binCenters (lonBinsFor i) := by
      rw [lonCentersOf, ← hnB, getD_map_of_lt _ _ i [] (by simpa using hi)]
      rw [List.get_eq_getElem, List.getElem_range]
      rw [getD_map_of_lt _ _ i [] (by simpa using hi)]
      rw [List.get_eq_getElem, List.getElem_range]
    rw [List.map_map, List.map_map, hlonC]
    have hmr := map_getD_range (binCenters (lonBinsFor i))
      (fun c => fmt (latCenter lat_bins i) c) 0
    trans (List.map (fun c => fmt (latCenter lat_bins i) c) (binCenters (lonBinsFor i)))
    · exact List.map_congr_left (fun c _ => rfl)
    · rw [← hmr]
      exact List.map_congr_left
        (fun j _ => by simp only [Function.comp_apply, cellIdOf, hlonC])

/-- C2, confirmed: for a grid produced by `create_grid_cells` whose cell ids
are pairwise distinct, the edge list of `create_grid_edges` is a simple
undirected graph — no edge joins a cell id to itself, and no unordered pair of
cell ids occurs twice in the list. -/
theorem claim_C2 {ι : Type} (fmt : ℝ → ℝ → ι) (mn mx a b gs : ℝ)
    (lb : List ℝ) (lbbl : List (List ℝ)) (cells : List (ℝ × ℝ × ι)) (E : List (ι × ι))
    (hc : createGridCells fmt mn mx a b gs = .ok (lb, lbbl, cells))
    (hE : createGridEdges fmt lb lbbl = .ok E)
    (hids : (cells.map (fun c => c.2.2)).Nodup) :
    (∀ e ∈ E, e.1 ≠ e.2) ∧
    E.Pairwise (fun e1 e2 =>
      ¬(e1.1 = e2.1 ∧ e1.2 = e2.2) ∧ ¬(e1.1 = e2.2 ∧ e1.2 = e2.1)) := by
  obtain ⟨hmap, hcrash⟩ := createGridEdges_ok_eq fmt lb lbbl E hE
  rw [(createGridCells_ok fmt mn mx a b gs lb lbbl cells hc).2, gridCellIds_eq] at hids
  have hinj := List.inj_on_of_nodup_map hids
  constructor
  · intro e he
    rw [hmap] at he
    obtain ⟨e0, he0, rfl⟩ := List.mem_map.mp he
    have hv := idxEdges_valid hcrash he0
    intro heq
    exact lexLt_ne hv.2.2
      (hinj (mem_cellIdxList.mpr ⟨hv.1.1, hv.1.2⟩)
        (mem_cellIdxList.mpr ⟨hv.2.1.1, hv.2.1.2⟩) heq)
  · rw [hmap, List.pairwise_map]
    refine (idxEdges_nodup _ _).imp_of_mem ?_
    intro e1 e2 h1 h2 hne
    have hv1 := idxEdges_valid hcrash h1
    have hv2 := idxEdges_valid hcrash h2
    have hm11 := mem_cellIdxList.mpr ⟨hv1.1.1, hv1.1.2⟩
    have hm12 := mem_cellIdxList.mpr ⟨hv1.2.1.1, hv1.2.1.2⟩
    have hm21 := mem_cellIdxList.mpr ⟨hv2.1.1, hv2.1.2⟩
    have hm22 := mem_cellIdxList.mpr ⟨hv2.2.1.1, hv2.2.1.2⟩
    constructor
    · rintro ⟨ha, hb⟩
      exact hne (Prod.ext_iff.mpr ⟨hinj hm11 hm21 ha, hinj hm12 hm22 hb⟩)
    · rintro ⟨ha, hb⟩
      have h1eq : e1.1 = e2.2 := hinj hm11 hm22 ha
      have h2eq : e1.2 = e2.1 := hinj hm12 hm21 hb
      refine lexLt_asymm hv1.2.2 ?_
      rw [h1eq, h2eq]
      exact hv2.2.2

/-- C10, confirmed: when `create_grid_edges` runs on the `lat_bins`,
`lon_bins_by_lat` produced by `create_grid_cells`, both endpoints of every
emitted edge are grid ids that `create_grid_cells` emitted in `cell_centers`
(the ids recomputed inside `create_grid_edges` coincide with the emitted
ones). -/
theorem claim_C10 {ι : Type} (fmt : ℝ → ℝ → ι) (mn mx a b gs : ℝ)
    (lb : List ℝ) (lbbl : List (List ℝ)) (cells : List (ℝ × ℝ × ι)) (E : List (ι × ι))
    (hc : createGridCells fmt mn mx a b gs = .ok (lb, lbbl, cells))
    (hE : createGridEdges fmt lb lbbl = .ok E) :
    ∀ e ∈ E, e.1 ∈ cells.map (fun c => c.2.2) ∧ e.2 ∈ cells.map (fun c => c.2.2) := by
  obtain ⟨hmap, hcrash⟩ := createGridEdges_ok_eq fmt lb lbbl E hE
  rw [(createGridCells_ok fmt mn mx a b gs lb lbbl cells hc).2, gridCellIds_eq]
  intro e he
  rw [hmap] at he
  obtain ⟨e0, he0, rfl⟩ := List.mem_map.mp he
  have hv := idxEdges_valid hcrash he0
  exact ⟨List.mem_map.mpr ⟨e0.1, mem_cellIdxList.mpr ⟨hv.1.1, hv.1.2⟩, rfl⟩,
    List.mem_map.mpr ⟨e0.2, mem_cellIdxList.mpr ⟨hv.2.1.1, hv.2.1.2⟩, rfl⟩⟩

/-! ## A concrete one-band grid, for the witnesses of C2 and C10 -/

lemma latCenter_eval : latCenter [(-5 : ℝ), 5] 0 = 0 := by
  rw [latCenter, show ([(-5 : ℝ), 5].getD 0 0) = -5 from rfl,
    show ([(-5 : ℝ), 5].getD 1 0) = 5 from rfl]
  norm_num

lemma lonStep_eval : lonStep 1110 0 = 10 := by
  rw [lonStep, radians, show (0 : ℝ) * Real.pi / 180 = 0 from by ring, Real.cos_zero]
  norm_num

lemma arangeLat_eval : arangeList (-5 : ℝ) (5 + 1110 / 111.0) (1110 / 111.0) =
    [-5, 5] := by
  rw [arangeList,
    show ((5 : ℝ) + 1110 / 111.0 - (-5)) / (1110 / 111.0) = ((2 : ℤ) : ℝ) from by
      norm_num,
    Int.ceil_intCast, show ((2 : ℤ)).toNat = 2 from rfl,
    show List.range 2 = [0, 1] from rfl]
  simp only [List.map_cons, List.map_nil, Nat.cast_zero, Nat.cast_one]
  norm_num

lemma arangeLon_eval : arangeList (-130 : ℝ)
    (-100 + lonStep 1110 (latCenter [(-5 : ℝ), 5] 0))
    (lonStep 1110 (latCenter [(-5 : ℝ), 5] 0)) = [-130, -120, -110, -100] := by
  rw [latCenter_eval, lonStep_eval, arangeList,
    show ((-100 : ℝ) + 10 - (-130)) / 10 = ((4 : ℤ) : ℝ) from by norm_num,
    Int.ceil_intCast, show ((4 : ℤ)).toNat = 4 from rfl,
    show List.range 4 = [0, 1, 2, 3] from rfl]
  simp only [List.map_cons, List.map_nil, Nat.cast_zero, Nat.cast_one,
    Nat.cast_ofNat]
  norm_num

lemma binCenters_eval : binCenters [(-130 : ℝ), -120, -110, -100] =
    [-125, -115, -105] := by
  rw [binCenters,
    show ([(-130 : ℝ), -120, -110, -100].zip [(-130 : ℝ), -120, -110, -100].tail) =
      [((-130 : ℝ), (-120 : ℝ)), (-120, -110), (-110, -100)] from rfl]
  simp only [List.map_cons, List.map_nil]
  norm_num

/-- The grid with a single band centered on the equator: two latitude bin
edges, four longitude bin edges, three cells. -/
lemma grid_eval :
    createGridCells (fun la lo => (la, lo)) (-5) 5 (-130) (-100) 1110 =
      .ok ([-5, 5], [[-130, -120, -110, -100]],
        [(0, -125, ((0 : ℝ), (-125 : ℝ))), (0, -115, (0, -115)),
         (0, -105, (0, -105))]) := by
  simp only [createGridCells]
  rw [if_neg (by norm_num : ¬((1110 : ℝ) / 111.0 = 0))]
  rw [arangeLat_eval]
  rw [show ([(-5 : ℝ), 5].length - 1) = 1 from rfl,
    show List.range 1 = [0] from rfl]
  rw [if_neg (by
    rintro ⟨i, hi, hz⟩
    simp only [List.mem_singleton] at hi
    subst hi
    rw [latCenter_eval, lonStep_eval] at hz
    norm_num at hz)]
  simp only [List.map_cons, List.map_nil, List.flatMap_cons, List.flatMap_nil]
  rw [arangeLon_eval, binCenters_eval, latCenter_eval]
  simp only [List.map_cons, List.map_nil, List.append_nil]

/-- The edges of the one-band grid: the two east edges. -/
lemma edges_eval :
    createGridEdges (fun la lo : ℝ => (la, lo)) [-5, 5] [[-130, -120, -110, -100]] =
      .ok [(((0 : ℝ), (-125 : ℝ)), ((0 : ℝ), (-115 : ℝ))),
           ((0, -115), (0, -105))] := by
  have hlc : lonCentersOf [(-5 : ℝ), 5] [[-130, -120, -110, -100]] =
      [[-125, -115, -105]] := by
    rw [lonCentersOf, show ([(-5 : ℝ), 5].length - 1) = 1 from rfl,
      show List.range 1 = [0] from rfl]
    simp only [List.map_cons, List.map_nil]
    rw [show ([[(-130 : ℝ), -120, -110, -100]].getD 0 []) =
      [(-130 : ℝ), -120, -110, -100] from rfl, binCenters_eval]
  simp only [createGridEdges]
  rw [hlc, show ([(-5 : ℝ), 5].length - 1) = 1 from rfl,
    show List.range 1 = [0] from rfl]
  rw [if_neg (by decide)]
  simp only [show ([[(-125 : ℝ), -115, -105]].getD 0 []) =
      [(-125 : ℝ), -115, -105] from rfl,
    show ([(-125 : ℝ), -115, -105].length) = 3 from rfl,
    show List.range 3 = [0, 1, 2] from rfl, List.flatMap_cons, List.flatMap_nil]
  rw [edgesFor, edgesFor, edgesFor]
  simp only [show ([[(-125 : ℝ), -115, -105]].getD 0 []) =
      [(-125 : ℝ), -115, -105] from rfl,
    show ([(-125 : ℝ), -115, -105].length) = 3 from rfl]
  have h03 : (0 : ℕ) + 1 < 3 := by norm_num
  have h13 : (1 : ℕ) + 1 < 3 := by norm_num
  have h23 : ¬((2 : ℕ) + 1 < 3) := by norm_num
  have h01 : ¬((0 : ℕ) + 1 < 1) := by norm_num
  simp only [if_pos h03, if_pos h13, if_neg h23, if_neg h01]
  simp only [List.append_nil, List.nil_append, cellIdOf]
  rw [latCenter_eval]
  rfl

/-- Witness for `claim_C10` at the one-band grid, instantiated at its first
edge: both endpoints are emitted cell ids. -/
theorem claim_C10_witness :
    ((0 : ℝ), (-125 : ℝ)) ∈ ([((0 : ℝ), (-125 : ℝ), ((0 : ℝ), (-125 : ℝ))),
        (0, -115, (0, -115)),
        (0, -105, (0, -105))].map (fun c => c.2.2)) ∧
    ((0 : ℝ), (-115 : ℝ)) ∈ ([((0 : ℝ), (-125 : ℝ), ((0 : ℝ), (-125 : ℝ))),
        (0, -115, (0, -115)),
        (0, -105, (0, -105))].map (fun c => c.2.2)) :=
  claim_C10 (fun la lo => (la, lo)) (-5) 5 (-130) (-100) 1110 _ _ _ _
    grid_eval edges_eval (((0, -125), (0, -115))) (List.mem_cons_self _ _)

/-- Witness for `claim_C2` at the one-band grid (its three cell ids are
pairwise distinct). -/
theorem claim_C2_witness :
    (∀ e ∈ [(((0 : ℝ), (-125 : ℝ)), ((0 : ℝ), (-115 : ℝ))),
           (((0 : ℝ), (-115 : ℝ)), ((0 : ℝ), (-105 : ℝ)))], e.1 ≠ e.2) ∧
    List.Pairwise (fun e1 e2 =>
      ¬(e1.1 = e2.1 ∧ e1.2 = e2.2) ∧ ¬(e1.1 = e2.2 ∧ e1.2 = e2.1))
      [(((0 : ℝ), (-125 : ℝ)), ((0 : ℝ), (-115 : ℝ))),
       (((0 : ℝ), (-115 : ℝ)), ((0 : ℝ), (-105 : ℝ)))] :=
  claim_C2 (fun la lo => (la, lo)) (-5) 5 (-130) (-100) 1110 _ _ _ _
    grid_eval edges_eval
    (by
      simp only [List.map_cons, List.map_nil, List.nodup_cons, List.mem_cons,
        List.not_mem_nil, or_false, List.mem_singleton, List.nodup_nil, and_true,
        Prod.mk.injEq, not_or]
      norm_num)

/-! ## C6: degree bound for interior cells -/

/-- Every neighbor of the cell `(i, j)` in the graph built from the emitted
edge list is one of: its west / east lateral neighbors, one of the up to three
cells of band `i + 1` it connects down to, or some cell of band `i - 1` (any
cell of the previous band can pick `(i, j)` as its longitude-nearest target).
Requires that distinct index pairs get distinct ids (`hinj`). -/
lemma neighbors_idx_sub {α ι : Type} [LinearOrderedField α] [DecidableEq ι]
    (fmt : α → α → ι) (latBins : List α) (L : List (List α)) (nB : ℕ)
    (hcrash : ∀ i, i + 1 < nB → L.getD i [] ≠ [] → L.getD (i + 1) [] ≠ [])
    (hinj : ∀ p, p ∈ cellIdxList L nB → ∀ q, q ∈ cellIdxList L nB →
      cellIdOf fmt latBins L p.1 p.2 = cellIdOf fmt latBins L q.1 q.2 → p = q)
    (i j : ℕ) (hij : (i, j) ∈ cellIdxList L nB) :
    ∀ x ∈ neighborsOf ((idxEdges L nB).map (fun e =>
        (cellIdOf fmt latBins L e.1.1 e.1.2, cellIdOf fmt latBins L e.2.1 e.2.2)))
      (cellIdOf fmt latBins L i j),
      x ∈ [cellIdOf fmt latBins L i (j - 1), cellIdOf fmt latBins L i (j + 1),
           cellIdOf fmt latBins L (i + 1)
             (argminAbs (L.getD (i + 1) []) ((L.getD i []).getD j 0)),
           cellIdOf fmt latBins L (i + 1)
             (argminAbs (L.getD (i + 1) []) ((L.getD i []).getD j 0) + 1),
           cellIdOf fmt latBins L (i + 1)
             (argminAbs (L.getD (i + 1) []) ((L.getD i []).getD j 0) - 1)] ++
        (List.range ((L.getD (i - 1) []).length)).map
          (fun m => cellIdOf fmt latBins L (i - 1) m) := by
  intro x hx
  rw [neighborsOf, List.mem_dedup] at hx
  obtain ⟨e, heE, hfe⟩ := List.mem_filterMap.mp hx
  obtain ⟨e0, he0, rfl⟩ := List.mem_map.mp heE
  dsimp only at hfe
  have hv := idxEdges_valid hcrash he0
  obtain ⟨i', j', hi', hj', hfor⟩ := mem_idxEdges he0
  obtain ⟨he1, hcases⟩ := mem_idxEdgesFor hfor
  have hm1 : e0.1 ∈ cellIdxList L nB := mem_cellIdxList.mpr ⟨hv.1.1, hv.1.2⟩
  have hm2 : e0.2 ∈ cellIdxList L nB := mem_cellIdxList.mpr ⟨hv.2.1.1, hv.2.1.2⟩
  simp only [List.cons_append, List.nil_append, List.mem_cons, List.mem_map,
    List.mem_range]
  split_ifs at hfe with h1 h2
  · -- the cell is the source of the edge
    have heq : e0.1 = (i, j) := hinj _ hm1 _ hij h1
    obtain rfl := (Option.some.inj hfe).symm
    rw [he1, Prod.mk.injEq] at heq
    obtain ⟨rfl, rfl⟩ := heq
    rcases hcases with ⟨he2, _⟩ | ⟨hnb, hsub⟩
    · exact Or.inr (Or.inl (by rw [he2]))
    · rcases hsub with he2 | ⟨he2, _⟩ | ⟨he2, _⟩
      · exact Or.inr (Or.inr (Or.inl (by rw [he2])))
      · exact Or.inr (Or.inr (Or.inr (Or.inl (by rw [he2]))))
      · exact Or.inr (Or.inr (Or.inr (Or.inr (Or.inl (by rw [he2])))))
  · -- the cell is the target of the edge
    have heq : e0.2 = (i, j) := hinj _ hm2 _ hij h2
    obtain rfl := (Option.some.inj hfe).symm
    rcases hcases with ⟨he2, _⟩ | ⟨hnb, hsub⟩
    · -- east edge into the cell: the source is the west lateral neighbor
      rw [he2, Prod.mk.injEq] at heq
      obtain ⟨rfl, hj'⟩ := heq
      refine Or.inl ?_
      rw [he1, show j - 1 = j' from by omega]
    · -- cross-band edge into the cell: the source is some cell of band i - 1
      have hieq : i' + 1 = i := by
        rcases hsub with he2 | ⟨he2, _⟩ | ⟨he2, _⟩ <;>
          (rw [he2, Prod.mk.injEq] at heq; exact heq.1)
      refine Or.inr (Or.inr (Or.inr (Or.inr (Or.inr ⟨j', ?_, ?_⟩))))
      · rw [show i - 1 = i' from by omega]
        exact hj'
      · rw [he1, show i - 1 = i' from by omega]

/-- C6, corrected: the degree of an interior cell is NOT bounded by 8 (see
`claim_C6_counterexample`, where it is 9).  The provable bound: every
interior cell has degree at most `5 + (size of the previous band)` — west and
east lateral neighbors, up to three cells of the next band, and any subset of
the previous band (each of whose cells may independently select this cell as
its longitude-nearest target).  Requires pairwise-distinct cell ids. -/
theorem claim_C6 {α ι : Type} [LinearOrderedField α] [DecidableEq ι]
    (fmt : α → α → ι) (latBins : List α) (lonBinsByLat : List (List α))
    (E : List (ι × ι)) (i j : ℕ)
    (hE : createGridEdges fmt latBins lonBinsByLat = .ok E)
    (hids : (gridCellIds fmt latBins lonBinsByLat).Nodup)
    (hi1 : 0 < i) (hi2 : i + 1 < latBins.length - 1) (hj1 : 0 < j)
    (hj2 : j + 1 < ((lonCentersOf latBins lonBinsByLat).getD i []).length) :
    degreeOf E (cellIdOf fmt latBins (lonCentersOf latBins lonBinsByLat) i j) ≤
      5 + ((lonCentersOf latBins lonBinsByLat).getD (i - 1) []).length := by
  obtain ⟨hmap, hcrash⟩ := createGridEdges_ok_eq fmt latBins lonBinsByLat E hE
  have hnd : ((cellIdxList (lonCentersOf latBins lonBinsByLat)
      (latBins.length - 1)).map
      (fun p => cellIdOf fmt latBins (lonCentersOf latBins lonBinsByLat)
        p.1 p.2)).Nodup := by
    rw [← gridCellIds_eq]
    exact hids
  have hinj := List.inj_on_of_nodup_map hnd
  have hij : (i, j) ∈ cellIdxList (lonCentersOf latBins lonBinsByLat)
      (latBins.length - 1) := by
    simp only [mem_cellIdxList]
    exact ⟨by omega, by omega⟩
  have hsub := neighbors_idx_sub fmt latBins (lonCentersOf latBins lonBinsByLat)
    (latBins.length - 1) hcrash (fun p hp q hq h => hinj hp hq h) i j hij
  rw [← hmap] at hsub
  have hnodup : (neighborsOf E (cellIdOf fmt latBins
      (lonCentersOf latBins lonBinsByLat) i j)).Nodup := by
    rw [neighborsOf]
    exact List.nodup_dedup _
  rw [degreeOf, ← List.toFinset_card_of_nodup hnodup]
  refine le_trans (le_trans (Finset.card_le_card (fun x hx =>
    List.mem_toFinset.mpr (hsub x (List.mem_toFinset.mp hx))))
    (List.toFinset_card_le _)) (le_of_eq ?_)
  simp only [List.length_append, List.length_map, List.length_range,
    List.length_cons, List.length_nil]

/-- The latitude bin edges of the C6 counterexample grid: three bands with
centers 1, 3, 5. -/
def cexLatBins : List ℝ := [0, 2, 4, 6]

/-- The longitude bin edges of the C6 counterexample grid: a fine band of five
cells, then a band of three cells, then a band of two cells. -/
def cexLonBins : List (List ℝ) :=
  [[0, 20, 40, 60, 80, 100], [0, 30, 70, 100], [0, 50, 100]]

/-- The edge list `create_grid_edges` emits on the counterexample grid
(proved in `cexEdges_eval`). -/
def cexE : List ((ℝ × ℝ) × (ℝ × ℝ)) :=
  [((1, 10), (1, 30)), ((1, 10), (3, 15)), ((1, 10), (3, 50)),
   ((1, 30), (1, 50)), ((1, 30), (3, 15)), ((1, 30), (3, 50)),
   ((1, 50), (1, 70)), ((1, 50), (3, 50)), ((1, 50), (3, 85)), ((1, 50), (3, 15)),
   ((1, 70), (1, 90)), ((1, 70), (3, 85)), ((1, 70), (3, 50)),
   ((1, 90), (3, 85)), ((1, 90), (3, 50)),
   ((3, 15), (3, 50)), ((3, 15), (5, 25)), ((3, 15), (5, 75)),
   ((3, 50), (3, 85)), ((3, 50), (5, 25)), ((3, 50), (5, 75)),
   ((3, 85), (5, 75)), ((3, 85), (5, 25)),
   ((5, 25), (5, 75))]

lemma argminAbs_pair (a b x : ℝ) :
    argminAbs [a, b] x = if |b - x| < |a - x| then 1 else 0 := by
  simp only [argminAbs, argminAbsGo]

lemma argminAbs_triple (a b c x : ℝ) :
    argminAbs [a, b, c] x =
      if |b - x| < |a - x| then (if |c - x| < |b - x| then 2 else 1)
      else (if |c - x| < |a - x| then 2 else 0) := by
  simp only [argminAbs, argminAbsGo]

lemma cexLonC : lonCentersOf cexLatBins cexLonBins =
    [[10, 30, 50, 70, 90], [15, 50, 85], [25, 75]] := by
  rw [lonCentersOf, show cexLatBins.length - 1 = 3 from rfl,
    show List.range 3 = [0, 1, 2] from rfl]
  simp only [List.map_cons, List.map_nil]
  rw [show (cexLonBins.getD 0 []) = [(0 : ℝ), 20, 40, 60, 80, 100] from rfl,
    show (cexLonBins.getD 1 []) = [(0 : ℝ), 30, 70, 100] from rfl,
    show (cexLonBins.getD 2 []) = [(0 : ℝ), 50, 100] from rfl,
    binCenters, binCenters, binCenters,
    show ([(0 : ℝ), 20, 40, 60, 80, 100].zip [(0 : ℝ), 20, 40, 60, 80, 100].tail) =
      [((0 : ℝ), (20 : ℝ)), (20, 40), (40, 60), (60, 80), (80, 100)] from rfl,
    show ([(0 : ℝ), 30, 70, 100].zip [(0 : ℝ), 30, 70, 100].tail) =
      [((0 : ℝ), (30 : ℝ)), (30, 70), (70, 100)] from rfl,
    show ([(0 : ℝ), 50, 100].zip [(0 : ℝ), 50, 100].tail) =
      [((0 : ℝ), (50 : ℝ)), (50, 100)] from rfl]
  simp only [List.map_cons, List.map_nil]
  norm_num

lemma cexLatC0 : latCenter cexLatBins 0 = 1 := by
  rw [latCenter, show cexLatBins.getD 0 0 = (0 : ℝ) from rfl,
    show cexLatBins.getD 1 0 = (2 : ℝ) from rfl]
  norm_num

lemma cexLatC1 : latCenter cexLatBins 1 = 3 := by
  rw [latCenter, show cexLatBins.getD 1 0 = (2 : ℝ) from rfl,
    show cexLatBins.getD 2 0 = (4 : ℝ) from rfl]
  norm_num

lemma cexLatC2 : latCenter cexLatBins 2 = 5 := by
  rw [latCenter, show cexLatBins.getD 2 0 = (4 : ℝ) from rfl,
    show cexLatBins.getD 3 0 = (6 : ℝ) from rfl]
  norm_num

/-- The emitted edge list on the counterexample grid, computed in full. -/
lemma cexEdges_eval :
    createGridEdges Prod.mk cexLatBins cexLonBins = .ok cexE := by
  simp only [createGridEdges]
  rw [cexLonC, show cexLatBins.length - 1 = 3 from rfl,
    show List.range 3 = [0, 1, 2] from rfl]
  rw [if_neg (by decide)]
  simp only [List.flatMap_cons, List.flatMap_nil]
  rw [show ([[(10 : ℝ), 30, 50, 70, 90], [15, 50, 85], [25, 75]].getD 0 []) =
      [(10 : ℝ), 30, 50, 70, 90] from rfl,
    show ([[(10 : ℝ), 30, 50, 70, 90], [15, 50, 85], [25, 75]].getD 1 []) =
      [(15 : ℝ), 50, 85] from rfl,
    show ([[(10 : ℝ), 30, 50, 70, 90], [15, 50, 85], [25, 75]].getD 2 []) =
      [(25 : ℝ), 75] from rfl,
    show List.range ([(10 : ℝ), 30, 50, 70, 90].length) = [0, 1, 2, 3, 4] from rfl,
    show List.range ([(15 : ℝ), 50, 85].length) = [0, 1, 2] from rfl,
    show List.range ([(25 : ℝ), 75].length) = [0, 1] from rfl]
  simp only [List.flatMap_cons, List.flatMap_nil, edgesFor, cellIdOf]
  rw [cexLatC0, cexLatC1, cexLatC2]
  norm_num [argminAbs_triple, argminAbs_pair, abs_of_nonneg, abs_of_nonpos, cexE]

lemma cexIds_eval : gridCellIds Prod.mk cexLatBins cexLonBins =
    [((1 : ℝ), (10 : ℝ)), (1, 30), (1, 50), (1, 70), (1, 90),
     (3, 15), (3, 50), (3, 85), (5, 25), (5, 75)] := by
  rw [gridCellIds, show cexLatBins.length - 1 = 3 from rfl,
    show List.range 3 = [0, 1, 2] from rfl, cexLonC]
  simp only [List.flatMap_cons, List.flatMap_nil]
  rw [show ([[(10 : ℝ), 30, 50, 70, 90], [15, 50, 85], [25, 75]].getD 0 []) =
      [(10 : ℝ), 30, 50, 70, 90] from rfl,
    show ([[(10 : ℝ), 30, 50, 70, 90], [15, 50, 85], [25, 75]].getD 1 []) =
      [(15 : ℝ), 50, 85] from rfl,
    show ([[(10 : ℝ), 30, 50, 70, 90], [15, 50, 85], [25, 75]].getD 2 []) =
      [(25 : ℝ), 75] from rfl,
    show List.range ([(10 : ℝ), 30, 50, 70, 90].length) = [0, 1, 2, 3, 4] from rfl,
    show List.range ([(15 : ℝ), 50, 85].length) = [0, 1, 2] from rfl,
    show List.range ([(25 : ℝ), 75].length) = [0, 1] from rfl]
  simp only [List.flatMap_cons, List.flatMap_nil, List.map_cons, List.map_nil,
    cellIdOf]
  rw [cexLatC0, cexLatC1, cexLatC2]
  norm_num

lemma cexIds_nodup : (gridCellIds Prod.mk cexLatBins cexLonBins).Nodup := by
  rw [cexIds_eval]
  norm_num [List.nodup_cons, List.mem_cons, Prod.mk.injEq]

lemma cexCell_eval :
    cellIdOf Prod.mk cexLatBins (lonCentersOf cexLatBins cexLonBins) 1 1 =
      ((3 : ℝ), (50 : ℝ)) := by
  rw [cellIdOf, cexLonC, cexLatC1,
    show ([[(10 : ℝ), 30, 50, 70, 90], [15, 50, 85], [25, 75]].getD 1 []) =
      [(15 : ℝ), 50, 85] from rfl,
    show ([(15 : ℝ), 50, 85].getD 1 0) = (50 : ℝ) from rfl]

lemma cexDegree : degreeOf cexE ((3 : ℝ), (50 : ℝ)) = 9 := by
  rw [degreeOf, neighborsOf]
  simp only [cexE]
  norm_num [List.filterMap_cons, List.filterMap_nil, Prod.mk.injEq,
    List.dedup_cons_of_not_mem, List.dedup_nil, List.mem_cons, List.not_mem_nil]

/-- C6 counterexample: on a three-band grid whose middle band is coarser than
the band above it, the interior cell `(1, 1)` of the middle band (not on any
band or longitude boundary) has degree 9 in the emitted graph — every one of
the five cells of the fine band 0 selects a middle-band cell adjacent to cell
`(1, 1)`, so all five become its neighbors, plus two lateral and two next-band
neighbors.  The claimed bound of 8 fails. -/
theorem claim_C6_counterexample :
    createGridEdges Prod.mk cexLatBins cexLonBins = .ok cexE ∧
    (0 < 1 ∧ 1 + 1 < cexLatBins.length - 1 ∧ 0 < 1 ∧
      1 + 1 < ((lonCentersOf cexLatBins cexLonBins).getD 1 []).length) ∧
    degreeOf cexE
      (cellIdOf Prod.mk cexLatBins (lonCentersOf cexLatBins cexLonBins) 1 1) = 9 ∧
    ¬ degreeOf cexE
      (cellIdOf Prod.mk cexLatBins (lonCentersOf cexLatBins cexLonBins) 1 1) ≤ 8 := by
  refine ⟨cexEdges_eval, ⟨Nat.one_pos, by decide, Nat.one_pos, ?_⟩, ?_, ?_⟩
  · rw [cexLonC]
    decide
  · rw [cexCell_eval]
    exact cexDegree
  · rw [cexCell_eval, cexDegree]
    decide

/-- Witness for `claim_C6` at the counterexample grid: the corrected bound
`5 + 5 = 10` does hold there (the degree is 9). -/
theorem claim_C6_witness :
    degreeOf cexE
      (cellIdOf Prod.mk cexLatBins (lonCentersOf cexLatBins cexLonBins) 1 1) ≤
      5 + ((lonCentersOf cexLatBins cexLonBins).getD 0 []).length :=
  claim_C6 Prod.mk cexLatBins cexLonBins cexE 1 1 cexEdges_eval cexIds_nodup
    Nat.one_pos (by decide) Nat.one_pos (by rw [cexLonC]; decide)

end Wildfire
